import Mathlib

/-!
Portfolio page script (`src/script.js`): the GitHub activity aggregation.

A shallow embedding of the data-refresh logic of `script.js`: the reducers over the
repository and event lists, the thirty-day contribution window, the language tally,
the relative-time label, the counter animation, the refresh timer and the error
handling of one poll cycle.

Conventions.
* JavaScript numbers that are counts are integers far below `2 ^ 53`, where double
  arithmetic is exact; they are `Int` or `Nat` here.  The counter animation divides by
  `30`, so there the rounding of doubles is modelled explicitly (`roundDouble`).
* Objects are association lists of their own properties in creation order.
* The GitHub REST payloads are typed records: a field the schema makes optional is an
  `Option` or a `JsField`.
-/

namespace Portfolio

/-! ## JavaScript values -/

/-- A JavaScript number produced by the `reduce` calls: an integer or `NaN`. -/
inductive JsNumber where
  | int (n : Int)
  | nan
  deriving DecidableEq, Repr

/-- A numeric field of a parsed JSON object as the script reads it: a number, `null`,
or `undefined` when the key is missing. -/
inductive JsField where
  | num (n : Int)
  | null
  | undefined
  deriving DecidableEq, Repr

/-- The operator `sum + field` where `sum` is a number: `null` converts to `+0`,
`undefined` converts to `NaN`, and `NaN` absorbs. -/
def JsNumber.add (sum : JsNumber) (field : JsField) : JsNumber :=
  match sum, field with
  | .int a, .num b => .int (a + b)
  | .int a, .null => .int a
  | .int _, .undefined => .nan
  | .nan, _ => .nan

/-- The numeric value a present field carries; `0` for `null` and for a missing key. -/
def JsField.value : JsField → Int
  | .num n => n
  | .null => 0
  | .undefined => 0

/-- Truthiness of a string-or-null value: `null` and the empty string are falsy. -/
def truthy : Option String → Bool
  | none => false
  | some s => s != ""

/-- The expression `value || fallback` on a string-or-null value. -/
def orElse (value : Option String) (fallback : String) : String :=
  match value with
  | none => fallback
  | some s => if s != "" then s else fallback

/-! ## Ordinary objects used as dictionaries -/

/-- The own properties of an ordinary object, in creation order. -/
abbrev JsObject (α : Type) := List (String × α)

/-- The method `hasOwnProperty(key)`. -/
def JsObject.hasOwnProperty {α : Type} (o : JsObject α) (key : String) : Bool :=
  o.any (fun e => e.1 == key)

/-- The value of property `key`, `none` standing for `undefined`.  Only own properties are
looked up: the dictionaries of the script are keyed by dates and by language names,
none of which is a member name of `Object.prototype` (`constructor`, `toString`, ...). -/
def JsObject.get {α : Type} (o : JsObject α) (key : String) : Option α :=
  (o.find? (fun e => e.1 == key)).map (fun e => e.2)

/-- The assignment `o[key] = v`: an existing own property keeps its place, a new one is
created last. -/
def JsObject.set {α : Type} (o : JsObject α) (key : String) (v : α) : JsObject α :=
  if o.hasOwnProperty key then o.map (fun e => if e.1 == key then (key, v) else e)
  else o ++ [(key, v)]

/-- The numeric value of a string of decimal digits. -/
def digitsValue (cs : List Char) : Nat :=
  cs.foldl (fun n c => 10 * n + (c.toNat - 48)) 0

/-- The array index a property name denotes, if any: a canonical decimal numeral
(no leading zero unless it is `"0"`) below `2 ^ 32 - 1`. -/
def arrayIndex? (key : String) : Option Nat :=
  let cs := key.data
  if cs ≠ [] ∧ cs.all Char.isDigit ∧ (cs.head? ≠ some '0' ∨ cs.length = 1)
      ∧ digitsValue cs < 4294967295 then
    some (digitsValue cs)
  else none

/-- The order in which array-index keys are enumerated. -/
def indexLE {α : Type} (a b : String × α) : Prop :=
  (arrayIndex? a.1).getD 0 ≤ (arrayIndex? b.1).getD 0

instance {α : Type} : DecidableRel (indexLE : String × α → String × α → Prop) :=
  fun a b => inferInstanceAs (Decidable ((arrayIndex? a.1).getD 0 ≤ (arrayIndex? b.1).getD 0))

/-- The result of `Object.entries(o)`: array-index keys first, in ascending numeric order,
then the other string keys in creation order. -/
def JsObject.entries {α : Type} (o : JsObject α) : List (String × α) :=
  (o.filter (fun e => (arrayIndex? e.1).isSome)).insertionSort indexLE
    ++ o.filter (fun e => (arrayIndex? e.1).isNone)

/-- The result of `Object.keys(o)`. -/
def JsObject.keys {α : Type} (o : JsObject α) : List String :=
  o.entries.map (fun e => e.1)

/-- The result of `Object.values(o)`. -/
def JsObject.values {α : Type} (o : JsObject α) : List α :=
  o.entries.map (fun e => e.2)

/-- The result of `array.sort(compare)` when `compare` is a consistent comparator: the
elements in ascending order of `compare`, those that compare equal keeping their original
order (the sort of the language is stable). -/
def jsSort {α : Type} (compare : α → α → Int) (l : List α) : List α :=
  l.insertionSort (fun a b => compare a b ≤ 0)

/-! ## GitHub payloads -/

/-- The fields of a repository object the script reads.  The field `updated_at` holds the
time value, in milliseconds, that `new Date(repo.updated_at)` denotes. -/
structure Repo where
  name : String
  html_url : String
  description : Option String
  stargazers_count : JsField
  forks_count : JsField
  watchers_count : JsField
  open_issues_count : JsField
  language : Option String
  updated_at : Int
  deriving DecidableEq, Repr

/-- The fields of the user object the script reads. -/
structure UserData where
  login : String
  name : Option String
  bio : Option String
  avatar_url : String
  html_url : String
  public_repos : Int
  followers : Int
  deriving DecidableEq, Repr

/-- The payload of an event: `commits` is absent on events that are not pushes. -/
structure Payload where
  commits : Option (List String)
  deriving DecidableEq, Repr

/-- The fields of a public event the script reads. -/
structure Event where
  type : String
  created_at : String
  payload : Payload
  deriving DecidableEq, Repr

/-! ## Aggregate repository statistics -/

/-- The star total of `fetchGitHubData`:
`reposData.reduce((sum, repo) => sum + repo.stargazers_count, 0)`. -/
def fetchGitHubData_totalStars (reposData : List Repo) : JsNumber :=
  reposData.foldl (fun sum repo => sum.add repo.stargazers_count) (.int 0)

/-- The four totals computed by `createRepoStatsChart`. -/
structure RepoStats where
  totalForks : JsNumber
  totalWatchers : JsNumber
  totalIssues : JsNumber
  totalStars : JsNumber
  deriving DecidableEq, Repr

/-- The block "Calculate stats" of `createRepoStatsChart`. -/
def createRepoStatsChart_stats (reposData : List Repo) : RepoStats where
  totalForks := reposData.foldl (fun sum repo => sum.add repo.forks_count) (.int 0)
  totalWatchers := reposData.foldl (fun sum repo => sum.add repo.watchers_count) (.int 0)
  totalIssues := reposData.foldl (fun sum repo => sum.add repo.open_issues_count) (.int 0)
  totalStars := reposData.foldl (fun sum repo => sum.add repo.stargazers_count) (.int 0)

/-- A repository with the given counts and no other content. -/
def sampleRepo (name : String) (language : Option String) (stars forks watchers issues : JsField) :
    Repo :=
  { name := name, html_url := "", description := none, stargazers_count := stars,
    forks_count := forks, watchers_count := watchers, open_issues_count := issues,
    language := language, updated_at := 0 }

/-! ## Language tally (`createLanguagesChart`) -/

/-- The loop "Count languages": one count per repository whose `language` is truthy. -/
def countLanguages (reposData : List Repo) : JsObject Nat :=
  reposData.foldl
    (fun languageCounts repo =>
      match repo.language with
      | some lang =>
        if truthy (some lang) then
          languageCounts.set lang ((languageCounts.get lang).getD 0 + 1)
        else languageCounts
      | none => languageCounts)
    []

/-- The array `sortedLanguages`:
`Object.entries(languageCounts).sort((a, b) => b[1] - a[1]).slice(0, 5)`. -/
def sortedLanguages (reposData : List Repo) : List (String × Nat) :=
  (jsSort (fun a b => (b.2 : Int) - (a.2 : Int)) (countLanguages reposData).entries).take 5

/-- The chart labels: `sortedLanguages.map(([lang]) => lang)`. -/
def languageLabels (reposData : List Repo) : List String :=
  (sortedLanguages reposData).map (fun e => e.1)

/-- The chart data: `sortedLanguages.map(([, count]) => count)`. -/
def languageData (reposData : List Repo) : List Nat :=
  (sortedLanguages reposData).map (fun e => e.2)

/-- Nine repositories, one of them without a language, in six languages; `Go` and `Rust`
occur twice. -/
def sampleRepos : List Repo :=
  [sampleRepo "r1" (some "Shell") (.num 1) (.num 0) (.num 1) (.num 0),
   sampleRepo "r2" (some "Go") (.num 2) (.num 1) (.num 2) (.num 3),
   sampleRepo "r3" none (.num 5) (.num 2) (.num 5) (.num 1),
   sampleRepo "r4" (some "Rust") (.num 0) (.num 0) (.num 0) (.num 0),
   sampleRepo "r5" (some "Go") (.num 7) (.num 4) (.num 7) (.num 2),
   sampleRepo "r6" (some "HCL") (.num 0) (.num 0) (.num 0) (.num 0),
   sampleRepo "r7" (some "Python") (.num 1) (.num 0) (.num 1) (.num 0),
   sampleRepo "r8" (some "Rust") (.num 0) (.num 1) (.num 0) (.num 0),
   sampleRepo "r9" (some "C") (.num 0) (.num 0) (.num 0) (.num 0)]

deriving instance DecidableEq for Except

/-- An exception of the kinds the script can meet. -/
inductive JsError where
  | rangeError
  | typeError
  | syntaxError
  | networkError
  deriving DecidableEq, Repr

/-- The constant `msPerDay`. -/
def msPerDay : Int := 86400000

/-- The abstract operation `Day(t)`. -/
def Day (t : Int) : Int := t / msPerDay

/-- The abstract operation `TimeWithinDay(t)`. -/
def TimeWithinDay (t : Int) : Int := t % msPerDay

/-- The proleptic Gregorian date (year, month `1..12`, day of month) of a day number
counted from 1970-01-01, computed era by era (an era is 400 years, 146097 days, starting
on a first of March). -/
def civilFromDays (z : Int) : Int × Int × Int :=
  let z := z + 719468
  let era := z / 146097
  let doe := z % 146097
  let yoe := (doe - doe / 1460 + doe / 36524 - doe / 146096) / 365
  let doy := doe - (365 * yoe + yoe / 4 - yoe / 100)
  let mp := (5 * doy + 2) / 153
  let d := doy - (153 * mp + 2) / 5 + 1
  let m := if mp < 10 then mp + 3 else mp - 9
  (if m ≤ 2 then yoe + era * 400 + 1 else yoe + era * 400, m, d)

/-- The day number of a proleptic Gregorian date; the day of month may lie outside the
month, counting on into the neighbouring months. -/
def daysFromCivil (y m d : Int) : Int :=
  let y := if m ≤ 2 then y - 1 else y
  let era := y / 400
  let yoe := y % 400
  let doy := (153 * (if m > 2 then m - 3 else m + 9) + 2) / 5 + d - 1
  let doe := yoe * 365 + yoe / 4 - yoe / 100 + doy
  era * 146097 + doe - 719468

/-- The abstract operation `YearFromTime(t)`. -/
def YearFromTime (t : Int) : Int := (civilFromDays (Day t)).1

/-- The abstract operation `MonthFromTime(t)`: `0` for January to `11` for December. -/
def MonthFromTime (t : Int) : Int := (civilFromDays (Day t)).2.1 - 1

/-- The abstract operation `DateFromTime(t)`: the day of the month. -/
def DateFromTime (t : Int) : Int := (civilFromDays (Day t)).2.2

/-- The abstract operation `MakeDay(year, month, date)`. -/
def MakeDay (year month date : Int) : Int :=
  daysFromCivil (year + month / 12) (month % 12 + 1) 1 + date - 1

/-- The abstract operation `MakeDate(day, time)`. -/
def MakeDate (day time : Int) : Int := day * msPerDay + time

/-- The abstract operation `TimeClip(time)`: `none` stands for `NaN`, an invalid date. -/
def TimeClip (time : Int) : Option Int :=
  if time.natAbs ≤ 8640000000000000 then some time else none

/-- The time zone of the browser: the offset of local time from UTC, in milliseconds, at
a UTC time value (`offsetAtUTC`) and at a local time value (`offsetAtLocal`). -/
structure TimeZone where
  offsetAtUTC : Int → Int
  offsetAtLocal : Int → Int

/-- The abstract operation `LocalTime(t)`. -/
def LocalTime (tz : TimeZone) (t : Int) : Int := t + tz.offsetAtUTC t

/-- The abstract operation `UTC(t)`. -/
def UTC (tz : TimeZone) (t : Int) : Int := t - tz.offsetAtLocal t

/-- The method `getDate()` of a valid date. -/
def getDate (tz : TimeZone) (t : Int) : Int := DateFromTime (LocalTime tz t)

/-- The method `setDate(dt)` of a valid date: the new time value of the date. -/
def setDate (tz : TimeZone) (t : Int) (dt : Int) : Option Int :=
  let localTime := LocalTime tz t
  let newDate := MakeDate (MakeDay (YearFromTime localTime) (MonthFromTime localTime) dt)
    (TimeWithinDay localTime)
  TimeClip (UTC tz newDate)

/-- A natural number in decimal, padded with zeros on the left to `width` digits. -/
def pad (width : Nat) (n : Nat) : String :=
  String.mk (List.replicate (width - (toString n).length) '0') ++ toString n

/-- The year of an ISO date-time string: four digits, or a sign and six digits outside
`0..9999`. -/
def isoYear (y : Int) : String :=
  if 0 ≤ y ∧ y ≤ 9999 then pad 4 y.toNat
  else (if 0 ≤ y then "+" else "-") ++ pad 6 y.natAbs

/-- The method `toISOString()`: `YYYY-MM-DDTHH:mm:ss.sssZ` in UTC; it throws a
`RangeError` on an invalid date. -/
def toISOString (date : Option Int) : Except JsError String :=
  match date with
  | none => .error .rangeError
  | some t =>
    let ymd := civilFromDays (Day t)
    let time := TimeWithinDay t
    .ok (isoYear ymd.1 ++ "-" ++ pad 2 ymd.2.1.toNat ++ "-" ++ pad 2 ymd.2.2.toNat ++ "T"
      ++ pad 2 (time / 3600000).toNat ++ ":" ++ pad 2 (time / 60000 % 60).toNat ++ ":"
      ++ pad 2 (time / 1000 % 60).toNat ++ "." ++ pad 3 (time % 1000).toNat ++ "Z")

/-- The expression `s.split('T')[0]`: the text before the first `T`. -/
def splitT0 (s : String) : String :=
  String.mk (s.data.takeWhile (fun c => c != 'T'))

/-- The time value of `year-month-dayThour:minute:00Z`. -/
def utcMillis (year month day hour minute : Int) : Int :=
  MakeDate (daysFromCivil year month day) (hour * 3600000 + minute * 60000)

/-- A time zone with a constant offset from UTC. -/
def fixedZone (offset : Int) : TimeZone where
  offsetAtUTC := fun _ => offset
  offsetAtLocal := fun _ => offset

/-- The zone Europe/London during 2026: UTC, and UTC+1 between 29 March 01:00 UTC and
25 October 01:00 UTC.  A local time skipped or repeated at a transition takes the offset
in force before the transition. -/
def europeLondon2026 : TimeZone where
  offsetAtUTC := fun t =>
    if utcMillis 2026 3 29 1 0 ≤ t ∧ t < utcMillis 2026 10 25 1 0 then 3600000 else 0
  offsetAtLocal := fun t =>
    if utcMillis 2026 3 29 2 0 ≤ t ∧ t < utcMillis 2026 10 25 2 0 then 3600000 else 0

/-! ## Contribution buckets (`fetchContributionsAndCreateChart`) -/

/-- The loop "Initialize last 30 days": for `i` from `29` down to `0`, the key of the date
`today` moved back by `i` days of the local calendar is created with count `0`. -/
def initWindow (tz : TimeZone) (today : Int) : Except JsError (JsObject Nat) :=
  (List.range 30).reverse.foldlM
    (fun (contributionsByDate : JsObject Nat) (i : Nat) => do
      let date := setDate tz today (getDate tz today - (i : Int))
      let iso ← toISOString date
      pure (contributionsByDate.set (splitT0 iso) 0))
    []

/-- The expression `event.payload.commits ? event.payload.commits.length : 0`. -/
def commitsOf (event : Event) : Nat :=
  match event.payload.commits with
  | some commits => commits.length
  | none => 0

/-- The body of the loop "Count contributions" on the pair
`(contributionsByDate, totalCommits)`. -/
def countEvent (state : JsObject Nat × Nat) (event : Event) : JsObject Nat × Nat :=
  let eventDate := splitT0 event.created_at
  if state.1.hasOwnProperty eventDate then
    if event.type = "PushEvent" then
      let commits := commitsOf event
      (state.1.set eventDate ((state.1.get eventDate).getD 0 + commits), state.2 + commits)
    else if event.type = "CreateEvent" ∨ event.type = "PullRequestEvent" then
      (state.1.set eventDate ((state.1.get eventDate).getD 0 + 1), state.2)
    else state
  else state

/-- Lines 112 to 137 of the script: the pair `(contributionsByDate, totalCommits)` after
both loops, or the exception thrown on the way. -/
def countContributions (tz : TimeZone) (today : Int) (eventsData : List Event) :
    Except JsError (JsObject Nat × Nat) := do
  let contributionsByDate ← initWindow tz today
  pure (eventsData.foldl countEvent (contributionsByDate, 0))

/-- The calendar date an event is filed under: `event.created_at.split('T')[0]`. -/
def eventDate (event : Event) : String := splitT0 event.created_at

/-- What one event adds to its bucket according to the specification: the number of
commits it carries for a push (zero when absent), one for a create or a pull request,
nothing for any other type. -/
def contribution (event : Event) : Nat :=
  if event.type = "PushEvent" then
    (match event.payload.commits with
     | some commits => commits.length
     | none => 0)
  else if event.type = "CreateEvent" ∨ event.type = "PullRequestEvent" then 1
  else 0

/-- The sum of the contributions of the events dated `d`. -/
def bucketSum (eventsData : List Event) (d : String) : Nat :=
  ((eventsData.filter (fun e => eventDate e == d)).map contribution).sum

/-- The sum of the commit counts of the push events dated inside the window. -/
def windowCommits (window : JsObject Nat) (eventsData : List Event) : Nat :=
  ((eventsData.filter (fun e => window.hasOwnProperty (eventDate e) && e.type == "PushEvent")).map
    (fun e => match e.payload.commits with
      | some commits => commits.length
      | none => 0)).sum

/-- Noon UTC on 6 November 2026. -/
def sampleToday : Int := utcMillis 2026 11 6 12 0

/-- A push of three commits and a branch creation, both on 6 November 2026. -/
def sampleEvents : List Event :=
  [{ type := "PushEvent", created_at := "2026-11-06T09:15:00Z",
     payload := { commits := some ["a1", "b2", "c3"] } },
   { type := "CreateEvent", created_at := "2026-11-06T10:40:00Z",
     payload := { commits := none } }]

/-- Half past midnight, British Summer Time, on 6 April 2026. -/
def londonSpringNight : Int := utcMillis 2026 4 5 23 30

/-- Half past midnight, Greenwich Mean Time, on 6 November 2026. -/
def londonAutumnNight : Int := utcMillis 2026 11 6 0 30

/-- The thirty dates from 8 October to 6 November 2026, each with a zero count. -/
def sampleWindow : JsObject Nat :=
  ["2026-10-08", "2026-10-09", "2026-10-10", "2026-10-11", "2026-10-12", "2026-10-13",
   "2026-10-14", "2026-10-15", "2026-10-16", "2026-10-17", "2026-10-18", "2026-10-19",
   "2026-10-20", "2026-10-21", "2026-10-22", "2026-10-23", "2026-10-24", "2026-10-25",
   "2026-10-26", "2026-10-27", "2026-10-28", "2026-10-29", "2026-10-30", "2026-10-31",
   "2026-11-01", "2026-11-02", "2026-11-03", "2026-11-04", "2026-11-05", "2026-11-06"].map
    (fun d => (d, 0))

/-! ## Relative time label (`formatDate`) -/

/-- The function `formatDate`.  `date` is the time value of `new Date(dateString)`, `now`
the time value of `new Date()`, and `toLocaleDateString` the rendering of a date in the
locale of the browser.  A number is interpolated as its decimal numeral. -/
def formatDate (toLocaleDateString : Int → String) (now date : Int) : String :=
  let diffMs := now - date
  let diffMins := diffMs / 60000
  let diffHours := diffMs / 3600000
  let diffDays := diffMs / 86400000
  if diffMins < 1 then "Just now"
  else if diffMins < 60 then
    toString diffMins ++ " min" ++ (if diffMins > 1 then "s" else "") ++ " ago"
  else if diffHours < 24 then
    toString diffHours ++ " hour" ++ (if diffHours > 1 then "s" else "") ++ " ago"
  else if diffDays < 7 then
    toString diffDays ++ " day" ++ (if diffDays > 1 then "s" else "") ++ " ago"
  else toLocaleDateString date

/-! ## Poll controller (`startRealTimeTracking`, `stopRealTimeTracking`) -/

/-- The timers of the poll controller: the identifier the next `setInterval` call
returns (identifiers are positive and never reused), the refresh intervals still
scheduled, the variable `refreshTimer` (`none` while `undefined`), and the number of
fetches the controller has started directly. -/
structure PollState where
  nextTimerId : Nat
  activeTimers : List Nat
  refreshTimer : Option Nat
  fetchesStarted : Nat
  deriving DecidableEq, Repr

/-- The state when the script has been loaded and no listener has run. -/
def PollState.initial : PollState :=
  { nextTimerId := 1, activeTimers := [], refreshTimer := none, fetchesStarted := 0 }

/-- The function `startRealTimeTracking`: one immediate fetch, then a new interval whose
identifier is stored in `refreshTimer`. -/
def startRealTimeTracking (s : PollState) : PollState :=
  { nextTimerId := s.nextTimerId + 1
    activeTimers := s.activeTimers ++ [s.nextTimerId]
    refreshTimer := some s.nextTimerId
    fetchesStarted := s.fetchesStarted + 1 }

/-- The function `stopRealTimeTracking`: the interval named by `refreshTimer`, if the
variable is truthy, is cleared. -/
def stopRealTimeTracking (s : PollState) : PollState :=
  match s.refreshTimer with
  | some id =>
    if id ≠ 0 then { s with activeTimers := s.activeTimers.filter (fun t => t != id) } else s
  | none => s

/-- The page events the controller listens to: `DOMContentLoaded`, `visibilitychange` with
`document.hidden` true or false, and `beforeunload`. -/
inductive PageEvent where
  | pageLoad
  | pageHidden
  | pageVisible
  | pageUnload
  deriving DecidableEq, Repr

/-- The listener that runs on a page event. -/
def pollStep (s : PollState) : PageEvent → PollState
  | .pageLoad => startRealTimeTracking s
  | .pageHidden => stopRealTimeTracking s
  | .pageVisible => startRealTimeTracking s
  | .pageUnload => stopRealTimeTracking s

/-- The state after a sequence of page events. -/
def pollRun (events : List PageEvent) : PollState :=
  events.foldl pollStep PollState.initial

/-- The event starts the tracking. -/
def PageEvent.starts : PageEvent → Bool
  | .pageLoad => true
  | .pageVisible => true
  | _ => false

/-- Every event that starts the tracking is the first event or directly follows one that
stops it: the page is loaded visible, then hidden and shown in turn. -/
def startsFollowStops : Option PageEvent → List PageEvent → Bool
  | _, [] => true
  | none, e :: es => startsFollowStops (some e) es
  | some prev, e :: es => (!e.starts || !prev.starts) && startsFollowStops (some e) es

/-! ## One poll cycle (`fetchGitHubData`)

The document and the three chart variables are a record that the functions of the script
transform.  The charting library and the locale-dependent renderings are collaborators
outside the script: a chart is the configuration handed to it, a rendering is a function
of the environment. -/

/-- The data-dependent part of a chart configuration. -/
structure ChartConfig where
  type : String
  labels : List String
  data : List JsNumber
  deriving DecidableEq, Repr

/-- One card of the recent-repository list. -/
structure RepoCard where
  href : String
  name : String
  description : String
  stars : JsField
  forks : JsField
  language : Option String
  updated : String
  deriving DecidableEq, Repr

/-- A write to a counter element: an animation toward a target started by
`animateCounter`, or a text stored directly. -/
inductive CounterWrite where
  | animate (target : JsNumber)
  | text (content : String)
  deriving DecidableEq, Repr

/-- The parts of the document the cycle reads and writes, and the chart variables.
`statOpacity` lists `style.opacity` of the `.stat-number` elements; `counterWrites` is the
log of writes to the counter elements, by element id; `reposGrid` is the content of
`.repos-grid`, `none` when the element does not exist; the three `Canvas` flags tell
whether the canvas elements exist; `lastRefresh` is the text of `#last-refresh`, `none`
before it is created. -/
structure Page where
  statOpacity : List String
  avatarSrc : String
  githubName : String
  githubBio : String
  githubLink : String
  counterWrites : List (String × CounterWrite)
  reposGrid : Option (List RepoCard)
  contributionCanvas : Bool
  languagesCanvas : Bool
  repoStatsCanvas : Bool
  contributionChart : Option ChartConfig
  languagesChart : Option ChartConfig
  repoStatsChart : Option ChartConfig
  lastRefresh : Option String
  deriving DecidableEq, Repr

/-- What the cycle takes from the browser: the time zone, the clock (one reading stands
for all the readings of a cycle), and three renderings of dates. -/
structure Env where
  tz : TimeZone
  now : Int
  toLocaleDateString : Int → String
  toLocaleTimeString : Int → String
  shortDate : String → String

/-- The outcome of `fetch(...)` followed by `.json()`: the request is rejected, the body
is not JSON, or the parsed data. -/
inductive Fetched (α : Type) where
  | rejected
  | unparsable
  | ok (data : α)

/-- The effect of `await` on the two steps of a request. -/
def Fetched.await {α : Type} : Fetched α → Except JsError α
  | .rejected => .error .networkError
  | .unparsable => .error .syntaxError
  | .ok data => .ok data

/-- The function `showLoadingState`. -/
def showLoadingState (p : Page) : Page :=
  { p with statOpacity := p.statOpacity.map (fun _ => "0.5") }

/-- The function `hideLoadingState`. -/
def hideLoadingState (p : Page) : Page :=
  { p with statOpacity := p.statOpacity.map (fun _ => "1") }

/-- The call `animateCounter(elementId, targetValue)` seen from the cycle: an animation of
the element toward the target is started. -/
def Page.animateCounter (p : Page) (elementId : String) (targetValue : JsNumber) : Page :=
  { p with counterWrites := p.counterWrites ++ [(elementId, .animate targetValue)] }

/-- The function `displayRecentRepos`. -/
def displayRecentRepos (env : Env) (repos : List Repo) (p : Page) : Page :=
  match p.reposGrid with
  | none => p
  | some _ =>
    { p with reposGrid := some (repos.map (fun repo =>
        { href := repo.html_url
          name := repo.name
          description := orElse repo.description "No description available"
          stars := repo.stargazers_count
          forks := repo.forks_count
          language := if truthy repo.language then repo.language else none
          updated := formatDate env.toLocaleDateString env.now repo.updated_at })) }

/-- The function `createContributionChart`. -/
def createContributionChart (env : Env) (contributionsByDate : JsObject Nat) (p : Page) : Page :=
  if !p.contributionCanvas then p
  else
    { p with contributionChart := some {
        type := "line"
        labels := contributionsByDate.keys.map env.shortDate
        data := contributionsByDate.values.map (fun n => JsNumber.int n) } }

/-- The function `fetchContributionsAndCreateChart`, with its own `try`/`catch`. -/
def fetchContributionsAndCreateChart (env : Env) (events : Fetched (List Event)) (p : Page) :
    Page :=
  match events.await >>= countContributions env.tz env.now with
  | .ok (contributionsByDate, totalCommits) =>
    createContributionChart env contributionsByDate
      (p.animateCounter "commits-count" (.int totalCommits))
  | .error _ =>
    { p with counterWrites := p.counterWrites ++ [("commits-count", .text "N/A")] }

/-- The function `createLanguagesChart`. -/
def createLanguagesChart (reposData : List Repo) (p : Page) : Page :=
  if !p.languagesCanvas then p
  else
    { p with languagesChart := some {
        type := "doughnut"
        labels := languageLabels reposData
        data := (languageData reposData).map (fun n => JsNumber.int n) } }

/-- The function `createRepoStatsChart`. -/
def createRepoStatsChart (reposData : List Repo) (p : Page) : Page :=
  if !p.repoStatsCanvas then p
  else
    let stats := createRepoStatsChart_stats reposData
    { p with repoStatsChart := some {
        type := "bar"
        labels := ["Stars", "Forks", "Watchers", "Open Issues"]
        data := [stats.totalStars, stats.totalForks, stats.totalWatchers, stats.totalIssues] } }

/-- The function `updateLastRefreshTime`: the element `#last-refresh` is created if it is
missing and its text, after the icon, is rewritten; `REFRESH_INTERVAL / 1000` is `60`. -/
def updateLastRefreshTime (env : Env) (p : Page) : Page :=
  { p with lastRefresh := some (
      "Last updated: " ++ env.toLocaleTimeString env.now ++ " | Auto-refresh in 60s") }

/-- The `try` block of `fetchGitHubData`: the exception it ends with, if any, and the page
as it is at that point. -/
def fetchGitHubData_try (env : Env) (user : Fetched UserData) (repos : Fetched (List Repo))
    (events : Fetched (List Event)) (p : Page) : Except JsError Unit × Page :=
  let p := showLoadingState p
  match user.await with
  | .error e => (.error e, p)
  | .ok userData =>
    match repos.await with
    | .error e => (.error e, p)
    | .ok reposData =>
      let totalStars := fetchGitHubData_totalStars reposData
      let p := p.animateCounter "repos-count" (.int userData.public_repos)
      let p := p.animateCounter "stars-count" totalStars
      let p := p.animateCounter "followers-count" (.int userData.followers)
      let p := { p with
        avatarSrc := userData.avatar_url
        githubName := orElse userData.name userData.login
        githubBio := orElse userData.bio "Cloud DevOps Engineer"
        githubLink := userData.html_url }
      let p := displayRecentRepos env (reposData.take 6) p
      let p := fetchContributionsAndCreateChart env events p
      let p := createLanguagesChart reposData p
      let p := createRepoStatsChart reposData p
      let p := updateLastRefreshTime env p
      (.ok (), hideLoadingState p)

/-- The function `fetchGitHubData`: the `try` block, and the `catch` block when it threw.
The first component is the exception that escapes to the caller, if any. -/
def fetchGitHubData (env : Env) (user : Fetched UserData) (repos : Fetched (List Repo))
    (events : Fetched (List Event)) (p : Page) : Except JsError Unit × Page :=
  match fetchGitHubData_try env user repos events p with
  | (.ok u, p) => (.ok u, p)
  | (.error _, p) =>
    (.ok (), hideLoadingState
      { p with
        githubName := "Unable to load GitHub data"
        githubBio := "Please check your internet connection or GitHub username" })

/-- A page showing the result of an earlier cycle. -/
def samplePage : Page :=
  { statOpacity := ["1", "1", "1", "1"]
    avatarSrc := "https://avatars.githubusercontent.com/u/1"
    githubName := "Collins Munufie"
    githubBio := "Cloud DevOps Engineer"
    githubLink := "https://github.com/Collins-Munufie"
    counterWrites := [("repos-count", .animate (.int 9)), ("stars-count", .animate (.int 16))]
    reposGrid := some []
    contributionCanvas := true
    languagesCanvas := true
    repoStatsCanvas := true
    contributionChart := some { type := "line", labels := ["Nov 6"], data := [.int 4] }
    languagesChart := some { type := "doughnut", labels := ["Go"], data := [.int 2] }
    repoStatsChart := some {
      type := "bar", labels := ["Stars", "Forks", "Watchers", "Open Issues"],
      data := [.int 16, .int 8, .int 16, .int 6] }
    lastRefresh := some "Last updated: 09:00:00 | Auto-refresh in 60s" }

/-- A browser on UTC at noon on 6 November 2026 that renders dates as their time value. -/
def sampleEnv : Env :=
  { tz := fixedZone 0
    now := sampleToday
    toLocaleDateString := fun t => toString t
    toLocaleTimeString := fun t => toString t
    shortDate := fun key => key }

/-- The user object of the sample cycle. -/
def sampleUser : UserData :=
  { login := "Collins-Munufie", name := some "Collins Munufie", bio := none,
    avatar_url := "https://avatars.githubusercontent.com/u/1",
    html_url := "https://github.com/Collins-Munufie", public_repos := 9, followers := 3 }

/-! ## Counter animation (`animateCounter`)

The animation divides by `30` and adds the quotient repeatedly, so its numbers are doubles
that are not integers.  A finite double is the rational it denotes; an operation returns
the double nearest to the exact result, ties going to the even significand.  The exponent
range is not bounded here: all values of the animation lie between `2 ^ (-1022)` and
`2 ^ 1024` in magnitude, or are zero, where this is the arithmetic of the language. -/

/-- The integer nearest to `x`, the even one of the two when `x` lies half way. -/
def roundHalfEven (x : ℚ) : ℤ :=
  if x - ⌊x⌋ < 1 / 2 then ⌊x⌋
  else if 1 / 2 < x - ⌊x⌋ then ⌊x⌋ + 1
  else if ⌊x⌋ % 2 = 0 then ⌊x⌋
  else ⌊x⌋ + 1

/-- The double nearest to `x`: a multiple of `2 ^ (e - 52)` with a significand of 53 bits,
where `2 ^ e ≤ |x| < 2 ^ (e + 1)`. -/
def roundDouble (x : ℚ) : ℚ :=
  if x = 0 then 0
  else roundHalfEven (x / 2 ^ (Int.log 2 |x| - 52)) * 2 ^ (Int.log 2 |x| - 52)

/-- The variables of one call of `animateCounter` and the number the element shows. -/
structure Counter where
  targetValue : Int
  increment : ℚ
  current : ℚ
  step : Nat
  textContent : Int
  timerActive : Bool

/-- The call `animateCounter(elementId, targetValue)` up to `setInterval`, for an element
that shows the integer `currentValue`. -/
def animateCounter (currentValue targetValue : Int) : Counter :=
  { targetValue := targetValue
    increment := roundDouble (roundDouble ((targetValue : ℚ) - (currentValue : ℚ)) / 30)
    current := currentValue
    step := 0
    textContent := currentValue
    timerActive := true }

/-- One period of the interval: the callback runs unless the timer has been cleared. -/
def Counter.tick (c : Counter) : Counter :=
  if !c.timerActive then c
  else
    let step := c.step + 1
    let current := roundDouble (c.current + c.increment)
    if step ≥ 30 then
      { c with step := step, current := current, textContent := c.targetValue,
               timerActive := false }
    else
      { c with step := step, current := current, textContent := ⌊current⌋ }

/-- The state after `n` periods of the interval. -/
def Counter.after (c : Counter) : Nat → Counter
  | 0 => c
  | n + 1 => (c.after n).tick

/-- The variable `current` after `k` additions of the increment. -/
def runningSum (start increment : ℚ) : Nat → ℚ
  | 0 => start
  | k + 1 => roundDouble (runningSum start increment k + increment)

/-- The value of the exact linear interpolation at tick `k`. -/
def interpolation (start target : Int) (k : Nat) : ℚ :=
  (start : ℚ) + (k : ℚ) * ((target : ℚ) - (start : ℚ)) / 30

/-! ## Theorems -/

/-! ### Aggregate repository statistics -/

/-- Whether a key is an own property only depends on the list of keys. -/
theorem hasOwnProperty_eq_decide_mem {α : Type} (o : JsObject α) (k : String) :
    o.hasOwnProperty k = decide (k ∈ o.map (fun e => e.1)) := by
  unfold JsObject.hasOwnProperty
  induction o with
  | nil => simp
  | cons e o ih =>
    simp only [List.any_cons, ih, List.map_cons, List.mem_cons]
    by_cases hk : e.1 = k
    · simp [hk]
    · have hk' : ¬ k = e.1 := fun h => hk h.symm
      simp [hk, hk']

/-- Assigning to an own property keeps the keys and their order. -/
theorem keys_set_of_has {α : Type} (o : JsObject α) (k : String) (v : α)
    (h : o.hasOwnProperty k = true) :
    (o.set k v).map (fun e => e.1) = o.map (fun e => e.1) := by
  unfold JsObject.set
  rw [if_pos h, List.map_map]
  apply List.map_congr_left
  intro e _
  by_cases hk : e.1 = k
  · simp [hk]
  · simp [hk]

/-- Reading back an assigned own property. -/
theorem get_set_self {α : Type} (o : JsObject α) (k : String) (v : α)
    (h : o.hasOwnProperty k = true) : (o.set k v).get k = some v := by
  unfold JsObject.set
  rw [if_pos h]
  unfold JsObject.get JsObject.hasOwnProperty at *
  induction o with
  | nil => simp at h
  | cons e o ih =>
    simp only [List.map_cons, List.find?_cons]
    by_cases hk : e.1 = k
    · simp [hk]
    · have hb : (e.1 == k) = false := by simp [hk]
      simp only [hb, Bool.false_eq_true, if_false]
      simp only [List.any_cons, hb, Bool.false_or] at h
      exact ih h

/-- Assigning to one own property leaves the others as they were. -/
theorem get_set_ne {α : Type} (o : JsObject α) (k d : String) (v : α)
    (h : o.hasOwnProperty k = true) (hd : d ≠ k) : (o.set k v).get d = o.get d := by
  unfold JsObject.set
  rw [if_pos h]
  unfold JsObject.get
  clear h
  induction o with
  | nil => rfl
  | cons e o ih =>
    simp only [List.map_cons, List.find?_cons]
    by_cases hk : e.1 = k
    · have hb : (k == d) = false := by simp [Ne.symm hd]
      have hb' : (e.1 == d) = false := by simp [hk, Ne.symm hd]
      have hb'' : (e.1 == k) = true := by simp [hk]
      simp only [hb'', if_true, hb, hb']
      exact ih
    · have hb : (e.1 == k) = false := by simp [hk]
      simp only [hb, Bool.false_eq_true, if_false]
      cases hed : (e.1 == d)
      · exact ih
      · rfl

/-- An own property has a value. -/
theorem get_isSome_of_has {α : Type} (o : JsObject α) (k : String)
    (h : o.hasOwnProperty k = true) : ∃ v, o.get k = some v := by
  unfold JsObject.get JsObject.hasOwnProperty at *
  induction o with
  | nil => simp at h
  | cons e o ih =>
    simp only [List.find?_cons]
    cases hb : (e.1 == k)
    · simp only [List.any_cons, hb, Bool.false_or] at h
      exact ih h
    · exact ⟨e.2, rfl⟩

/-! ### Contribution buckets -/

/-- Objects with the same keys own the same properties. -/
theorem hasOwnProperty_congr {α : Type} (o o' : JsObject α)
    (h : o'.map (fun e => e.1) = o.map (fun e => e.1)) (k : String) :
    o'.hasOwnProperty k = o.hasOwnProperty k := by
  rw [hasOwnProperty_eq_decide_mem, hasOwnProperty_eq_decide_mem, h]

/-- One event never creates or deletes a key. -/
theorem countEvent_keys (state : JsObject Nat × Nat) (event : Event) :
    (countEvent state event).1.map (fun e => e.1) = state.1.map (fun e => e.1) := by
  unfold countEvent
  by_cases hin : state.1.hasOwnProperty (splitT0 event.created_at) = true
  · simp only [hin, if_true]
    by_cases hp : event.type = "PushEvent"
    · simp only [hp, if_true]
      exact keys_set_of_has _ _ _ hin
    · simp only [hp, if_false]
      by_cases hc : event.type = "CreateEvent" ∨ event.type = "PullRequestEvent"
      · simp only [hc, if_true]
        exact keys_set_of_has _ _ _ hin
      · simp only [hc, if_false]
  · simp only [hin, Bool.false_eq_true, if_false]

/-- The bucket of a date of the window after one event. -/
theorem countEvent_get (state : JsObject Nat × Nat) (event : Event) (d : String)
    (hd : state.1.hasOwnProperty d = true) :
    (countEvent state event).1.get d
      = some ((state.1.get d).getD 0 + (if eventDate event = d then contribution event else 0)) := by
  obtain ⟨v, hv⟩ := get_isSome_of_has state.1 d hd
  unfold countEvent contribution eventDate commitsOf
  by_cases hin : state.1.hasOwnProperty (splitT0 event.created_at) = true
  · simp only [hin, if_true]
    by_cases hp : event.type = "PushEvent"
    · simp only [hp, if_true]
      by_cases hed : splitT0 event.created_at = d
      · subst hed
        rw [get_set_self _ _ _ hin]
        simp
      · rw [get_set_ne _ _ _ _ hin (Ne.symm hed)]
        simp [hed, hv]
    · simp only [hp, if_false]
      by_cases hc : event.type = "CreateEvent" ∨ event.type = "PullRequestEvent"
      · simp only [hc, if_true]
        by_cases hed : splitT0 event.created_at = d
        · subst hed
          rw [get_set_self _ _ _ hin]
          simp
        · rw [get_set_ne _ _ _ _ hin (Ne.symm hed)]
          simp [hed, hv]
      · simp [hc, hv]
  · have hed : ¬ splitT0 event.created_at = d := by
      intro e
      rw [e] at hin
      exact hin hd
    simp [hin, hed, hv]

/-- The commit total after one event. -/
theorem countEvent_total (state : JsObject Nat × Nat) (event : Event) :
    (countEvent state event).2
      = state.2 + (if state.1.hasOwnProperty (eventDate event) = true ∧ event.type = "PushEvent"
          then commitsOf event else 0) := by
  unfold countEvent eventDate
  by_cases hin : state.1.hasOwnProperty (splitT0 event.created_at) = true
  · by_cases hp : event.type = "PushEvent"
    · simp [hin, hp]
    · by_cases hc : event.type = "CreateEvent" ∨ event.type = "PullRequestEvent"
      · simp [hin, hp, hc]
      · simp [hin, hp, hc]
  · simp [hin]

/-- An event dated outside the window changes nothing. -/
theorem countEvent_outside (state : JsObject Nat × Nat) (event : Event)
    (h : state.1.hasOwnProperty (eventDate event) = false) : countEvent state event = state := by
  unfold countEvent
  unfold eventDate at h
  simp [h]

/-- The sum of a bucket, one event at a time. -/
theorem bucketSum_cons (event : Event) (es : List Event) (d : String) :
    bucketSum (event :: es) d
      = (if eventDate event = d then contribution event else 0) + bucketSum es d := by
  unfold bucketSum
  by_cases h : eventDate event = d
  · simp [List.filter_cons, h]
  · simp [List.filter_cons, h]

/-- The commits of the window, one event at a time. -/
theorem windowCommits_cons (window : JsObject Nat) (event : Event) (es : List Event) :
    windowCommits window (event :: es)
      = (if window.hasOwnProperty (eventDate event) = true ∧ event.type = "PushEvent"
          then commitsOf event else 0) + windowCommits window es := by
  unfold windowCommits commitsOf
  by_cases h : window.hasOwnProperty (eventDate event) = true ∧ event.type = "PushEvent"
  · simp [List.filter_cons, h.1, h.2]
  · have h' : (window.hasOwnProperty (eventDate event) && event.type == "PushEvent") = false := by
      rw [Bool.and_eq_false_iff]
      by_cases h1 : window.hasOwnProperty (eventDate event) = true
      · right
        simp only [beq_eq_false_iff_ne, ne_eq]
        exact fun h2 => h ⟨h1, h2⟩
      · left
        simpa using h1
    rw [List.filter_cons, h', if_neg h]
    simp

/-- The commits of the window only depend on the keys of the window. -/
theorem windowCommits_congr (window window' : JsObject Nat)
    (h : window'.map (fun e => e.1) = window.map (fun e => e.1)) (es : List Event) :
    windowCommits window' es = windowCommits window es := by
  unfold windowCommits
  have : (fun e : Event => window'.hasOwnProperty (eventDate e) && e.type == "PushEvent")
      = (fun e : Event => window.hasOwnProperty (eventDate e) && e.type == "PushEvent") := by
    funext e
    rw [hasOwnProperty_congr window window' h]
  rw [this]

/-- The loop "Count contributions": keys, buckets and commit total after all events. -/
theorem foldl_countEvent (es : List Event) (state : JsObject Nat × Nat) :
    (es.foldl countEvent state).1.map (fun e => e.1) = state.1.map (fun e => e.1)
    ∧ (∀ d, state.1.hasOwnProperty d = true →
        (es.foldl countEvent state).1.get d = some ((state.1.get d).getD 0 + bucketSum es d))
    ∧ (es.foldl countEvent state).2 = state.2 + windowCommits state.1 es := by
  induction es generalizing state with
  | nil =>
    refine ⟨rfl, ?_, ?_⟩
    · intro d hd
      obtain ⟨v, hv⟩ := get_isSome_of_has state.1 d hd
      simp [bucketSum, hv]
    · simp [windowCommits]
  | cons event es ih =>
    rw [List.foldl_cons]
    obtain ⟨hk, hg, ht⟩ := ih (countEvent state event)
    have hkeys := countEvent_keys state event
    refine ⟨hk.trans hkeys, ?_, ?_⟩
    · intro d hd
      have hd' : (countEvent state event).1.hasOwnProperty d = true := by
        rw [hasOwnProperty_congr _ _ hkeys]; exact hd
      rw [hg d hd', countEvent_get state event d hd, bucketSum_cons]
      simp [Nat.add_assoc]
    · rw [ht, countEvent_total, windowCommits_congr _ _ hkeys, windowCommits_cons]
      omega

/-- Events dated outside the window can be dropped before the loop. -/
theorem foldl_countEvent_filter (es : List Event) (state : JsObject Nat × Nat) :
    es.foldl countEvent state
      = (es.filter (fun e => state.1.hasOwnProperty (eventDate e))).foldl countEvent state := by
  induction es generalizing state with
  | nil => rfl
  | cons event es ih =>
    rw [List.foldl_cons]
    by_cases hin : state.1.hasOwnProperty (eventDate event) = true
    · rw [List.filter_cons, if_pos hin, List.foldl_cons, ih]
      have : (fun e : Event => (countEvent state event).1.hasOwnProperty (eventDate e))
          = (fun e : Event => state.1.hasOwnProperty (eventDate e)) := by
        funext e
        exact hasOwnProperty_congr _ _ (countEvent_keys state event) _
      rw [this]
    · rw [List.filter_cons, if_neg hin]
      have hout : state.1.hasOwnProperty (eventDate event) = false := by simpa using hin
      rw [countEvent_outside state event hout]
      exact ih state

/-- Creating or resetting a bucket keeps all counts at zero. -/
theorem set_zero_all_zero (o : JsObject Nat) (k : String) (h : ∀ e ∈ o, e.2 = 0) :
    ∀ e ∈ o.set k 0, e.2 = 0 := by
  intro e he
  unfold JsObject.set at he
  split at he
  · rw [List.mem_map] at he
    obtain ⟨x, hx, rfl⟩ := he
    by_cases hk : (x.1 == k) = true
    · simp [hk]
    · simp only [hk, Bool.false_eq_true, if_false]
      exact h x hx
  · rcases List.mem_append.mp he with he | he
    · exact h e he
    · simp only [List.mem_singleton] at he
      rw [he]

/-- The loop "Initialize last 30 days", started from zero buckets, ends with zero buckets. -/
theorem initLoop_all_zero (tz : TimeZone) (today : Int) (indices : List Nat)
    (o window : JsObject Nat) (ho : ∀ e ∈ o, e.2 = 0)
    (h : (indices.foldlM
        (fun (contributionsByDate : JsObject Nat) (i : Nat) => do
          let date := setDate tz today (getDate tz today - (i : Int))
          let iso ← toISOString date
          pure (contributionsByDate.set (splitT0 iso) 0))
        o : Except JsError (JsObject Nat)) = Except.ok window) :
    ∀ e ∈ window, e.2 = 0 := by
  induction indices generalizing o with
  | nil =>
    simp only [List.foldlM_nil, pure, Except.pure, Except.ok.injEq] at h
    rw [← h]
    exact ho
  | cons i indices ih =>
    rw [List.foldlM_cons] at h
    cases hiso : toISOString (setDate tz today (getDate tz today - (i : Int))) with
    | error err =>
      simp only [hiso, bind, Except.bind] at h
      cases h
    | ok iso =>
      simp only [hiso, bind, Except.bind, pure, Except.pure] at h
      exact ih _ (set_zero_all_zero o _ ho) h

/-- Every bucket of the window starts at zero. -/
theorem initWindow_get (tz : TimeZone) (today : Int) (window : JsObject Nat)
    (h : initWindow tz today = .ok window) (d : String)
    (hd : window.hasOwnProperty d = true) : window.get d = some 0 := by
  have hz := initLoop_all_zero tz today _ [] window (by simp) h
  obtain ⟨v, hv⟩ := get_isSome_of_has window d hd
  rw [hv]
  unfold JsObject.get at hv
  rw [Option.map_eq_some'] at hv
  obtain ⟨e, he, rfl⟩ := hv
  rw [hz e (List.mem_of_find?_eq_some he)]

/-- C1. Whenever the loop "Initialize last 30 days" of `fetchContributionsAndCreateChart`
has built its window, the loop "Count contributions" completes for every list of fetched
events, and: the final bucket of every date `d` of the window is the sum, over the events
dated `d`, of the commits carried by a push (zero when `payload.commits` is absent), one
for a create or pull-request event, zero for any other type; the keys are those of the
window; an event dated outside the window changes neither the buckets nor the total, so
the result is that of the events dated inside; `totalCommits` is the sum of the commit
counts of the push events dated inside the window.  For a push of three commits and a
create event, both dated today, today's bucket is `4` and `totalCommits` is `3`. -/
theorem contribution_buckets_are_sums (tz : TimeZone) (today : Int) (eventsData : List Event)
    (window : JsObject Nat) (hw : initWindow tz today = .ok window) :
    ∃ contributionsByDate totalCommits,
      countContributions tz today eventsData = .ok (contributionsByDate, totalCommits)
      ∧ (∀ d, window.hasOwnProperty d = true →
          contributionsByDate.get d = some (bucketSum eventsData d))
      ∧ contributionsByDate.map (fun e => e.1) = window.map (fun e => e.1)
      ∧ (∀ (state : JsObject Nat × Nat) (event : Event),
          state.1.map (fun e => e.1) = window.map (fun e => e.1) →
          window.hasOwnProperty (eventDate event) = false → countEvent state event = state)
      ∧ eventsData.foldl countEvent (window, 0)
          = (eventsData.filter (fun e => window.hasOwnProperty (eventDate e))).foldl countEvent
              (window, 0)
      ∧ totalCommits = windowCommits window eventsData
      ∧ (countContributions (fixedZone 0) sampleToday sampleEvents).map
          (fun r => (r.1.get "2026-11-06", r.2)) = .ok (some 4, 3) := by
  obtain ⟨hk, hg, ht⟩ := foldl_countEvent eventsData (window, 0)
  refine ⟨(eventsData.foldl countEvent (window, 0)).1, (eventsData.foldl countEvent (window, 0)).2,
    ?_, ?_, hk, ?_, foldl_countEvent_filter eventsData (window, 0), ?_, ?_⟩
  · unfold countContributions
    rw [hw]
    rfl
  · intro d hd
    rw [hg d hd, initWindow_get tz today window hw d hd]
    simp
  · intro state event hs hout
    apply countEvent_outside
    rw [hasOwnProperty_congr window state.1 hs]
    exact hout
  · rw [ht]
    simp
  · decide!

/-- The window built at noon UTC on 6 November 2026 in a browser on UTC. -/
theorem initWindow_sample : initWindow (fixedZone 0) sampleToday = .ok sampleWindow := by
  decide!

/-- C1 at noon UTC on 6 November 2026 with a push of three commits and a create event of
that day: the bucket of the day is `4`, the commit total `3`. -/
theorem contribution_buckets_are_sums_witness :
    initWindow (fixedZone 0) sampleToday = .ok sampleWindow
    ∧ ∃ contributionsByDate totalCommits,
        countContributions (fixedZone 0) sampleToday sampleEvents
          = .ok (contributionsByDate, totalCommits)
        ∧ contributionsByDate.get "2026-11-06" = some 4 ∧ totalCommits = 3 := by
  obtain ⟨o, total, hrun, hbucket, _, _, _, htotal, _⟩ :=
    contribution_buckets_are_sums (fixedZone 0) sampleToday sampleEvents sampleWindow
      initWindow_sample
  refine ⟨initWindow_sample, o, total, hrun, ?_, ?_⟩
  · rw [hbucket "2026-11-06" (by decide)]
    decide
  · rw [htotal]
    decide

/-- C4 fails on the code. In a browser on London time at 00:30 on 6 April 2026
(2026-04-05T23:30Z), the loop "Initialize last 30 days" steps back through local days
but names each by its UTC date: eight days back is 00:30 GMT on 29 March, seven days back
is 00:30 BST on 30 March, which is still 29 March in UTC.  The mapping handed to
`createContributionChart` has 29 keys, for any events (here none).  At 00:30 on
6 November 2026 it has 30 keys that skip 25 October and start a day early. -/
theorem window_across_clock_change :
    toISOString (setDate europeLondon2026 londonSpringNight
        (getDate europeLondon2026 londonSpringNight - 8)) = .ok "2026-03-29T00:30:00.000Z"
    ∧ toISOString (setDate europeLondon2026 londonSpringNight
        (getDate europeLondon2026 londonSpringNight - 7)) = .ok "2026-03-29T23:30:00.000Z"
    ∧ (countContributions europeLondon2026 londonSpringNight []).map (fun r => r.1.keys)
        = .ok ["2026-03-08", "2026-03-09", "2026-03-10", "2026-03-11", "2026-03-12",
            "2026-03-13", "2026-03-14", "2026-03-15", "2026-03-16", "2026-03-17", "2026-03-18",
            "2026-03-19", "2026-03-20", "2026-03-21", "2026-03-22", "2026-03-23", "2026-03-24",
            "2026-03-25", "2026-03-26", "2026-03-27", "2026-03-28", "2026-03-29", "2026-03-30",
            "2026-03-31", "2026-04-01", "2026-04-02", "2026-04-03", "2026-04-04", "2026-04-05"]
    ∧ (countContributions europeLondon2026 londonSpringNight []).map (fun r => r.1.length)
        = .ok 29
    ∧ (countContributions europeLondon2026 londonAutumnNight []).map (fun r => r.1.keys)
        = .ok ["2026-10-07", "2026-10-08", "2026-10-09", "2026-10-10", "2026-10-11",
            "2026-10-12", "2026-10-13", "2026-10-14", "2026-10-15", "2026-10-16", "2026-10-17",
            "2026-10-18", "2026-10-19", "2026-10-20", "2026-10-21", "2026-10-22", "2026-10-23",
            "2026-10-24", "2026-10-26", "2026-10-27", "2026-10-28", "2026-10-29", "2026-10-30",
            "2026-10-31", "2026-11-01", "2026-11-02", "2026-11-03", "2026-11-04", "2026-11-05",
            "2026-11-06"] := by
  decide!

/-! ### Relative time label -/

/-- C5. For every date and current time, with `d = now - date` in milliseconds,
`formatDate` returns "Just now" when `floor(d / 60000) < 1`; otherwise, with
`N = floor(d / 60000)`, "1 min ago" or "N mins ago" when `N < 60`; otherwise, with
`N = floor(d / 3600000)`, "1 hour ago" or "N hours ago" when `N < 24`; otherwise, with
`N = floor(d / 86400000)`, "1 day ago" or "N days ago" when `N < 7`; otherwise the locale
date string; the plural "s" is there exactly when `N > 1`.  Five minutes give
"5 mins ago", ninety minutes "1 hour ago", three days "3 days ago", ten days the locale
date string. -/
theorem formatDate_cases (toLocaleDateString : Int → String) (now date : Int) :
    ((now - date) / 60000 < 1 → formatDate toLocaleDateString now date = "Just now")
    ∧ (1 ≤ (now - date) / 60000 → (now - date) / 60000 < 60 →
        formatDate toLocaleDateString now date
          = toString ((now - date) / 60000)
              ++ (if (now - date) / 60000 > 1 then " mins ago" else " min ago"))
    ∧ (60 ≤ (now - date) / 60000 → (now - date) / 3600000 < 24 →
        formatDate toLocaleDateString now date
          = toString ((now - date) / 3600000)
              ++ (if (now - date) / 3600000 > 1 then " hours ago" else " hour ago"))
    ∧ (60 ≤ (now - date) / 60000 → 24 ≤ (now - date) / 3600000 → (now - date) / 86400000 < 7 →
        formatDate toLocaleDateString now date
          = toString ((now - date) / 86400000)
              ++ (if (now - date) / 86400000 > 1 then " days ago" else " day ago"))
    ∧ (60 ≤ (now - date) / 60000 → 24 ≤ (now - date) / 3600000 → 7 ≤ (now - date) / 86400000 →
        formatDate toLocaleDateString now date = toLocaleDateString date)
    ∧ formatDate toLocaleDateString now (now - 5 * 60000) = "5 mins ago"
    ∧ formatDate toLocaleDateString now (now - 90 * 60000) = "1 hour ago"
    ∧ formatDate toLocaleDateString now (now - 3 * 86400000) = "3 days ago"
    ∧ formatDate toLocaleDateString now (now - 10 * 86400000)
        = toLocaleDateString (now - 10 * 86400000) := by
  have hs : ∀ (n : String) (unit : String), n ++ unit ++ "s" ++ " ago" = n ++ (unit ++ "s ago") := by
    intro n unit
    rw [String.append_assoc, String.append_assoc]
    rfl
  have h0 : ∀ (n : String) (unit : String), n ++ unit ++ "" ++ " ago" = n ++ (unit ++ " ago") := by
    intro n unit
    rw [String.append_assoc, String.append_assoc]
    rfl
  refine ⟨?_, ?_, ?_, ?_, ?_, ?_, ?_, ?_, ?_⟩
  · intro h
    simp only [formatDate, h, if_true]
  · intro h1 h2
    have h1' : ¬ (now - date) / 60000 < 1 := by omega
    simp only [formatDate, h1', h2, if_true, if_false]
    split
    · rw [hs]; rfl
    · rw [h0]; rfl
  · intro h1 h2
    have h1' : ¬ (now - date) / 60000 < 1 := by omega
    have h1'' : ¬ (now - date) / 60000 < 60 := by omega
    simp only [formatDate, h1', h1'', h2, if_true, if_false]
    split
    · rw [hs]; rfl
    · rw [h0]; rfl
  · intro h1 h2 h3
    have h1' : ¬ (now - date) / 60000 < 1 := by omega
    have h1'' : ¬ (now - date) / 60000 < 60 := by omega
    have h2' : ¬ (now - date) / 3600000 < 24 := by omega
    simp only [formatDate, h1', h1'', h2', h3, if_true, if_false]
    split
    · rw [hs]; rfl
    · rw [h0]; rfl
  · intro h1 h2 h3
    have h1' : ¬ (now - date) / 60000 < 1 := by omega
    have h1'' : ¬ (now - date) / 60000 < 60 := by omega
    have h2' : ¬ (now - date) / 3600000 < 24 := by omega
    have h3' : ¬ (now - date) / 86400000 < 7 := by omega
    simp only [formatDate, h1', h1'', h2', h3', if_false]
  · have e : now - (now - 5 * 60000) = 300000 := by omega
    simp only [formatDate, e]
    rfl
  · have e : now - (now - 90 * 60000) = 5400000 := by omega
    simp only [formatDate, e]
    rfl
  · have e : now - (now - 3 * 86400000) = 259200000 := by omega
    simp only [formatDate, e]
    rfl
  · have e : now - (now - 10 * 86400000) = 864000000 := by omega
    simp only [formatDate, e]
    rfl

/-! ### Poll controller -/

/-- C7 fails on the code. A page loaded in a background tab and then shown receives
page-load followed by page-visible: `startRealTimeTracking` runs twice without a stop in
between, two refresh intervals are scheduled and `refreshTimer` only remembers the second.
Hiding the page then clears that one and leaves the first interval running. -/
theorem two_timers_after_load_then_visible :
    (pollRun [.pageLoad, .pageVisible]).activeTimers = [1, 2]
    ∧ (pollRun [.pageLoad, .pageVisible]).refreshTimer = some 2
    ∧ (pollRun [.pageLoad, .pageVisible, .pageHidden]).activeTimers = [1]
    ∧ (pollRun [.pageLoad, .pageVisible, .pageHidden, .pageUnload]).activeTimers = [1] := by
  decide

/-- Stopping clears the only timer when it is the one `refreshTimer` names. -/
theorem stop_clears_owned (s : PollState)
    (h : s.activeTimers = [] ∨ ∃ id, s.activeTimers = [id] ∧ s.refreshTimer = some id ∧ id ≠ 0) :
    (stopRealTimeTracking s).activeTimers = []
    ∧ (stopRealTimeTracking s).nextTimerId = s.nextTimerId := by
  rcases h with h | ⟨id, h1, h2, h3⟩
  · cases hr : s.refreshTimer with
    | none => simp [stopRealTimeTracking, hr, h]
    | some id => by_cases hid : id = 0 <;> simp [stopRealTimeTracking, hr, h, hid]
  · simp [stopRealTimeTracking, h1, h2, h3]

/-- Starting with no timer scheduled leaves exactly the new timer, named by
`refreshTimer`. -/
theorem start_from_none (s : PollState) (h : s.activeTimers = []) :
    (startRealTimeTracking s).activeTimers = [s.nextTimerId]
    ∧ (startRealTimeTracking s).refreshTimer = some s.nextTimerId
    ∧ (startRealTimeTracking s).nextTimerId = s.nextTimerId + 1 := by
  simp [startRealTimeTracking, h]

/-- The listeners keep one timer at most as long as every start follows a stop. -/
theorem pollStep_alternating (events : List PageEvent) (prev : Option PageEvent) (s : PollState)
    (hown : s.activeTimers = []
      ∨ ∃ id, s.activeTimers = [id] ∧ s.refreshTimer = some id ∧ id ≠ 0)
    (hnext : s.nextTimerId ≠ 0)
    (hprev : ∀ p, prev = some p → p.starts = false → s.activeTimers = [])
    (hnone : prev = none → s.activeTimers = [])
    (h : startsFollowStops prev events = true) :
    ∀ (before : List PageEvent) (e : PageEvent) (after : List PageEvent),
      events = before ++ e :: after →
      ((before ++ [e]).foldl pollStep s).activeTimers.length = if e.starts then 1 else 0 := by
  induction events generalizing prev s with
  | nil =>
    intro before e after hev
    simp at hev
  | cons x xs ih =>
    have hrest : startsFollowStops (some x) xs = true := by
      cases prev with
      | none => simpa [startsFollowStops] using h
      | some p =>
        simp only [startsFollowStops, Bool.and_eq_true] at h
        exact h.2
    have hempty : x.starts = true → s.activeTimers = [] := by
      intro hx
      cases prev with
      | none => exact hnone rfl
      | some p =>
        simp only [startsFollowStops, Bool.and_eq_true, Bool.or_eq_true,
          Bool.not_eq_true'] at h
        rcases h.1 with h1 | h1
        · rw [hx] at h1; cases h1
        · exact hprev p rfl h1
    -- the state after the listener for `x`
    have hstep : ((pollStep s x).activeTimers = []
          ∨ ∃ id, (pollStep s x).activeTimers = [id] ∧ (pollStep s x).refreshTimer = some id
              ∧ id ≠ 0)
        ∧ (pollStep s x).nextTimerId ≠ 0
        ∧ (pollStep s x).activeTimers.length = (if x.starts then 1 else 0) := by
      cases x with
      | pageLoad =>
        obtain ⟨h1, h2, h3⟩ := start_from_none s (hempty rfl)
        refine ⟨Or.inr ⟨s.nextTimerId, h1, h2, hnext⟩, ?_, ?_⟩
        · show (startRealTimeTracking s).nextTimerId ≠ 0
          rw [h3]; omega
        · show (startRealTimeTracking s).activeTimers.length = _
          rw [h1]; rfl
      | pageVisible =>
        obtain ⟨h1, h2, h3⟩ := start_from_none s (hempty rfl)
        refine ⟨Or.inr ⟨s.nextTimerId, h1, h2, hnext⟩, ?_, ?_⟩
        · show (startRealTimeTracking s).nextTimerId ≠ 0
          rw [h3]; omega
        · show (startRealTimeTracking s).activeTimers.length = _
          rw [h1]; rfl
      | pageHidden =>
        obtain ⟨h1, h2⟩ := stop_clears_owned s hown
        refine ⟨Or.inl h1, ?_, ?_⟩
        · show (stopRealTimeTracking s).nextTimerId ≠ 0
          rw [h2]; exact hnext
        · show (stopRealTimeTracking s).activeTimers.length = _
          rw [h1]; rfl
      | pageUnload =>
        obtain ⟨h1, h2⟩ := stop_clears_owned s hown
        refine ⟨Or.inl h1, ?_, ?_⟩
        · show (stopRealTimeTracking s).nextTimerId ≠ 0
          rw [h2]; exact hnext
        · show (stopRealTimeTracking s).activeTimers.length = _
          rw [h1]; rfl
    intro before e after hev
    cases before with
    | nil =>
      simp only [List.nil_append, List.cons.injEq] at hev
      obtain ⟨rfl, _⟩ := hev
      simpa using hstep.2.2
    | cons b before =>
      simp only [List.cons_append, List.cons.injEq] at hev
      obtain ⟨rfl, hxs⟩ := hev
      simp only [List.cons_append, List.foldl_cons]
      refine ih (some x) (pollStep s x) hstep.1 hstep.2.1 ?_ ?_ hrest before e after hxs
      · intro p hp hps
        simp only [Option.some.injEq] at hp
        subst hp
        have := hstep.2.2
        rw [hps] at this
        exact List.length_eq_zero.mp (by simpa using this)
      · intro hn
        cases hn

/-- When the page is loaded visible and then hidden and shown in turn (every event that
starts the tracking is the first event or directly follows one that stops it), after each
event at most one refresh interval is scheduled: exactly one after page-load or
page-visible, none after page-hidden or page-unload. -/
theorem one_timer_when_starts_follow_stops (before : List PageEvent) (e : PageEvent)
    (after : List PageEvent) (h : startsFollowStops none (before ++ e :: after) = true) :
    (pollRun (before ++ [e])).activeTimers.length = if e.starts then 1 else 0 :=
  pollStep_alternating (before ++ e :: after) none PollState.initial (Or.inl rfl) (by decide)
    (fun _ hp => by cases hp) (fun _ => rfl) h before e after rfl

/-- A visit that loads the page, hides it, shows it, hides it again and leaves. -/
theorem one_timer_when_starts_follow_stops_witness :
    startsFollowStops none [.pageLoad, .pageHidden, .pageVisible, .pageHidden, .pageUnload] = true
    ∧ (pollRun [.pageLoad, .pageHidden, .pageVisible]).activeTimers.length = 1 :=
  ⟨by decide,
    one_timer_when_starts_follow_stops [.pageLoad, .pageHidden] .pageVisible
      [.pageHidden, .pageUnload] (by decide)⟩

/-! ### One poll cycle -/

/-- The page after a cycle whose `try` block threw before the first write. -/
theorem fetchGitHubData_of_failure (env : Env) (user : Fetched UserData)
    (repos : Fetched (List Repo)) (events : Fetched (List Event)) (p : Page)
    (h : (user = .rejected ∨ user = .unparsable) ∨ (repos = .rejected ∨ repos = .unparsable)) :
    fetchGitHubData env user repos events p
      = (.ok (),
          { p with
            statOpacity := p.statOpacity.map (fun _ => "1")
            githubName := "Unable to load GitHub data"
            githubBio := "Please check your internet connection or GitHub username" }) := by
  have hmap : (p.statOpacity.map (fun _ => "0.5")).map (fun _ => "1")
      = p.statOpacity.map (fun _ => "1") := by
    rw [List.map_map]
    rfl
  rcases h with (hu | hu) | (hr | hr)
  · subst hu
    simp only [fetchGitHubData, fetchGitHubData_try, Fetched.await, showLoadingState,
      hideLoadingState, hmap]
  · subst hu
    simp only [fetchGitHubData, fetchGitHubData_try, Fetched.await, showLoadingState,
      hideLoadingState, hmap]
  · subst hr
    cases user <;>
      simp only [fetchGitHubData, fetchGitHubData_try, Fetched.await, showLoadingState,
        hideLoadingState, hmap]
  · subst hr
    cases user <;>
      simp only [fetchGitHubData, fetchGitHubData_try, Fetched.await, showLoadingState,
        hideLoadingState, hmap]

/-- C8. For every poll cycle in which the user-profile request or the repositories request
is rejected or returns a body that does not parse, `fetchGitHubData` completes and no
exception escapes to the caller; afterwards `#github-name` reads "Unable to load GitHub
data", `#github-bio` reads the connectivity hint, the opacity of every `.stat-number` is
back to "1", and the three chart variables, the counters, the repository list and the
rest of the page are as they were before the cycle. -/
theorem primary_failure_falls_back (env : Env) (user : Fetched UserData)
    (repos : Fetched (List Repo)) (events : Fetched (List Event)) (p : Page)
    (h : (user = .rejected ∨ user = .unparsable) ∨ (repos = .rejected ∨ repos = .unparsable)) :
    (fetchGitHubData env user repos events p).1 = .ok ()
    ∧ (fetchGitHubData env user repos events p).2.githubName = "Unable to load GitHub data"
    ∧ (fetchGitHubData env user repos events p).2.githubBio
        = "Please check your internet connection or GitHub username"
    ∧ ((fetchGitHubData env user repos events p).2.statOpacity.length = p.statOpacity.length
        ∧ ∀ o ∈ (fetchGitHubData env user repos events p).2.statOpacity, o = "1")
    ∧ (fetchGitHubData env user repos events p).2.contributionChart = p.contributionChart
    ∧ (fetchGitHubData env user repos events p).2.languagesChart = p.languagesChart
    ∧ (fetchGitHubData env user repos events p).2.repoStatsChart = p.repoStatsChart
    ∧ (fetchGitHubData env user repos events p).2.counterWrites = p.counterWrites
    ∧ (fetchGitHubData env user repos events p).2.reposGrid = p.reposGrid
    ∧ (fetchGitHubData env user repos events p).2
        = { p with
            statOpacity := p.statOpacity.map (fun _ => "1")
            githubName := "Unable to load GitHub data"
            githubBio := "Please check your internet connection or GitHub username" } := by
  rw [fetchGitHubData_of_failure env user repos events p h]
  refine ⟨rfl, rfl, rfl, ⟨by simp, ?_⟩, rfl, rfl, rfl, rfl, rfl, rfl⟩
  intro o ho
  simp only [List.mem_map] at ho
  obtain ⟨_, _, rfl⟩ := ho
  rfl

/-- C8 on the sample page when the repositories request is rejected after the user
request succeeded: the name and bio fall back, the charts and counters stay. -/
theorem primary_failure_falls_back_witness :
    (fetchGitHubData sampleEnv (.ok sampleUser) .rejected (.ok sampleEvents) samplePage).1
        = .ok ()
    ∧ (fetchGitHubData sampleEnv (.ok sampleUser) .rejected (.ok sampleEvents) samplePage).2
        = { samplePage with
            githubName := "Unable to load GitHub data"
            githubBio := "Please check your internet connection or GitHub username" } := by
  have h := primary_failure_falls_back sampleEnv (.ok sampleUser) .rejected (.ok sampleEvents)
    samplePage (Or.inr (Or.inl rfl))
  exact ⟨h.1, h.2.2.2.2.2.2.2.2.2.trans (by decide)⟩

/-! ### Counter animation -/

/-- Rounding to the nearest integer does not pass an integer. -/
theorem roundHalfEven_le (x : ℚ) (n : ℤ) (h : x ≤ n) : roundHalfEven x ≤ n := by
  have hfl : ⌊x⌋ ≤ n := Int.floor_le_iff.mpr (by linarith [Int.lt_floor_add_one x])
  have hstep : x - ⌊x⌋ ≠ 0 → ⌊x⌋ + 1 ≤ n := by
    intro hne
    have hlt : (⌊x⌋ : ℚ) < n := by
      have := Int.floor_le x
      rcases lt_or_eq_of_le this with h1 | h1
      · linarith
      · exact absurd (by linarith) hne
    exact_mod_cast hlt
  unfold roundHalfEven
  split
  · exact hfl
  · split
    · apply hstep
      intro h0
      linarith
    · split
      · exact hfl
      · apply hstep
        intro h0
        rename_i h1 _ _
        rw [h0] at h1
        norm_num at h1

/-- Rounding to the nearest integer does not pass an integer, from above. -/
theorem le_roundHalfEven (x : ℚ) (n : ℤ) (h : (n : ℚ) ≤ x) : n ≤ roundHalfEven x := by
  have hfl : n ≤ ⌊x⌋ := Int.le_floor.mpr h
  unfold roundHalfEven
  split
  · exact hfl
  · split
    · omega
    · split
      · exact hfl
      · omega

/-- The unit in the last place of a double below `2 ^ 33` in magnitude divides `2 ^ (-20)`:
a multiple of `2 ^ (-20)` is an integer multiple of the unit. -/
theorem grid_eq_mul_ulp (x : ℚ) (N : ℤ) (h0 : x ≠ 0) (hx : |x| < 2 ^ (33 : ℕ)) :
    ∃ M : ℤ, (N : ℚ) / 2 ^ (20 : ℕ) = (M : ℚ) * 2 ^ (Int.log 2 |x| - 52) := by
  have hpos : 0 < |x| := abs_pos.mpr h0
  have hL : Int.log 2 |x| < 33 := by
    rw [← Int.lt_zpow_iff_log_lt (by norm_num) hpos]
    have : ((2 : ℕ) : ℚ) ^ (33 : ℤ) = 2 ^ (33 : ℕ) := by norm_num
    rw [this]
    exact hx
  obtain ⟨s, hs⟩ : ∃ s : ℕ, (s : ℤ) = -20 - (Int.log 2 |x| - 52) :=
    ⟨(-20 - (Int.log 2 |x| - 52)).toNat, by omega⟩
  refine ⟨N * 2 ^ s, ?_⟩
  have h2 : (2 : ℚ) ≠ 0 := by norm_num
  have hpow : (2 : ℚ) ^ s * 2 ^ (Int.log 2 |x| - 52) = (2 ^ (20 : ℕ))⁻¹ := by
    rw [← zpow_natCast, ← zpow_add₀ h2, hs, ← zpow_natCast, ← zpow_neg]
    congr 1
    omega
  push_cast
  rw [mul_assoc, hpow]
  rfl

/-- Rounding to a double does not pass a multiple of `2 ^ (-20)` from below, for an
argument below `2 ^ 33` in magnitude. -/
theorem roundDouble_le_grid (x : ℚ) (N : ℤ) (hx : |x| < 2 ^ (33 : ℕ))
    (h : x ≤ (N : ℚ) / 2 ^ (20 : ℕ)) : roundDouble x ≤ (N : ℚ) / 2 ^ (20 : ℕ) := by
  unfold roundDouble
  split
  · rename_i h0
    rw [h0] at h
    exact h
  · rename_i h0
    obtain ⟨M, hM⟩ := grid_eq_mul_ulp x N h0 hx
    have h2e : (0 : ℚ) < 2 ^ (Int.log 2 |x| - 52) := zpow_pos (by norm_num) _
    have hle : x / 2 ^ (Int.log 2 |x| - 52) ≤ (M : ℚ) := by
      rw [div_le_iff₀ h2e, ← hM]
      exact h
    have hr := roundHalfEven_le _ _ hle
    rw [hM]
    exact mul_le_mul_of_nonneg_right (by exact_mod_cast hr) h2e.le

/-- Rounding to a double does not pass a multiple of `2 ^ (-20)` from above, for an
argument below `2 ^ 33` in magnitude. -/
theorem grid_le_roundDouble (x : ℚ) (N : ℤ) (hx : |x| < 2 ^ (33 : ℕ))
    (h : (N : ℚ) / 2 ^ (20 : ℕ) ≤ x) : (N : ℚ) / 2 ^ (20 : ℕ) ≤ roundDouble x := by
  unfold roundDouble
  split
  · rename_i h0
    rw [h0] at h
    exact h
  · rename_i h0
    obtain ⟨M, hM⟩ := grid_eq_mul_ulp x N h0 hx
    have h2e : (0 : ℚ) < 2 ^ (Int.log 2 |x| - 52) := zpow_pos (by norm_num) _
    have hle : (M : ℚ) ≤ x / 2 ^ (Int.log 2 |x| - 52) := by
      rw [le_div_iff₀ h2e, ← hM]
      exact h
    have hr := le_roundHalfEven _ _ hle
    rw [hM]
    exact mul_le_mul_of_nonneg_right (by exact_mod_cast hr) h2e.le

/-- A multiple of `2 ^ (-20)` below `2 ^ 33` in magnitude is a double. -/
theorem roundDouble_grid (N : ℤ) (hx : |(N : ℚ) / 2 ^ (20 : ℕ)| < 2 ^ (33 : ℕ)) :
    roundDouble ((N : ℚ) / 2 ^ (20 : ℕ)) = (N : ℚ) / 2 ^ (20 : ℕ) :=
  le_antisymm (roundDouble_le_grid _ N hx le_rfl) (grid_le_roundDouble _ N hx le_rfl)

/-- The running sum stays between the sums of the two multiples of `2 ^ (-20)` that enclose
the increment. -/
theorem runningSum_between (start : Int) (increment : ℚ) (lo hi : ℤ)
    (hstart : |(start : ℚ)| ≤ 2 ^ (31 : ℕ))
    (hlo : (lo : ℚ) / 2 ^ (20 : ℕ) ≤ increment) (hhi : increment ≤ (hi : ℚ) / 2 ^ (20 : ℕ))
    (hlob : |(lo : ℚ) / 2 ^ (20 : ℕ)| ≤ 2 ^ (32 : ℕ) / 30 + 1)
    (hhib : |(hi : ℚ) / 2 ^ (20 : ℕ)| ≤ 2 ^ (32 : ℕ) / 30 + 1)
    (k : Nat) (hk : k ≤ 30) :
    (start : ℚ) + (k : ℚ) * ((lo : ℚ) / 2 ^ (20 : ℕ)) ≤ runningSum start increment k
    ∧ runningSum start increment k ≤ (start : ℚ) + (k : ℚ) * ((hi : ℚ) / 2 ^ (20 : ℕ)) := by
  induction k with
  | zero => simp [runningSum]
  | succ k ih =>
    obtain ⟨ihlo, ihhi⟩ := ih (by omega)
    have hk1 : ((k : ℚ) + 1) ≤ 30 := by exact_mod_cast hk
    have hk0 : (0 : ℚ) ≤ (k : ℚ) + 1 := by positivity
    -- the exact sum before rounding lies between the two grid points
    have hxlo : (start : ℚ) + ((k : ℚ) + 1) * ((lo : ℚ) / 2 ^ (20 : ℕ))
        ≤ runningSum start increment k + increment := by linarith
    have hxhi : runningSum start increment k + increment
        ≤ (start : ℚ) + ((k : ℚ) + 1) * ((hi : ℚ) / 2 ^ (20 : ℕ)) := by linarith
    have hmul : ∀ q : ℚ, |q| ≤ 2 ^ (32 : ℕ) / 30 + 1 →
        |((k : ℚ) + 1) * q| ≤ 30 * (2 ^ (32 : ℕ) / 30 + 1) := by
      intro q hq
      rw [abs_mul, abs_of_nonneg hk0]
      exact mul_le_mul hk1 hq (abs_nonneg q) (by norm_num)
    have hxabs : |runningSum start increment k + increment| < 2 ^ (33 : ℕ) := by
      have h1 := hmul _ hlob
      have h2 := hmul _ hhib
      rw [abs_le] at h1 h2 hstart
      rw [abs_lt]
      constructor
      · have : (-(2 : ℚ) ^ (33 : ℕ)) < -(2 ^ (31 : ℕ)) - 30 * (2 ^ (32 : ℕ) / 30 + 1) := by
          norm_num
        linarith [h1.1, hstart.1]
      · have : (2 : ℚ) ^ (31 : ℕ) + 30 * (2 ^ (32 : ℕ) / 30 + 1) < 2 ^ (33 : ℕ) := by norm_num
        linarith [h2.2, hstart.2]
    have glo : (((start * 2 ^ (20 : ℕ) + ((k : ℤ) + 1) * lo : ℤ) : ℚ)) / 2 ^ (20 : ℕ)
        = (start : ℚ) + ((k : ℚ) + 1) * ((lo : ℚ) / 2 ^ (20 : ℕ)) := by
      push_cast
      ring
    have ghi : (((start * 2 ^ (20 : ℕ) + ((k : ℤ) + 1) * hi : ℤ) : ℚ)) / 2 ^ (20 : ℕ)
        = (start : ℚ) + ((k : ℚ) + 1) * ((hi : ℚ) / 2 ^ (20 : ℕ)) := by
      push_cast
      ring
    constructor
    · have := grid_le_roundDouble _ (start * 2 ^ (20 : ℕ) + ((k : ℤ) + 1) * lo) hxabs
        (by rw [glo]; exact hxlo)
      rw [glo] at this
      simpa [runningSum] using this
    · have := roundDouble_le_grid _ (start * 2 ^ (20 : ℕ) + ((k : ℤ) + 1) * hi) hxabs
        (by rw [ghi]; exact hxhi)
      rw [ghi] at this
      simpa [runningSum] using this

/-- The difference of two integers of at most 32 bits is computed exactly. -/
theorem roundDouble_sub_exact (start target : Int) (hs : |start| ≤ 2 ^ 31)
    (ht : |target| ≤ 2 ^ 31) :
    roundDouble ((target : ℚ) - (start : ℚ)) = ((target - start : ℤ) : ℚ) := by
  have hd : |target - start| ≤ 2 ^ 32 := by
    rw [abs_le] at hs ht ⊢
    constructor <;> omega
  have hgrid : ((target : ℚ) - (start : ℚ))
      = (((target - start) * 2 ^ (20 : ℕ) : ℤ) : ℚ) / 2 ^ (20 : ℕ) := by
    push_cast
    ring
  have hq : |((target - start : ℤ) : ℚ)| ≤ 2 ^ (32 : ℕ) := by
    exact_mod_cast hd
  rw [hgrid, roundDouble_grid]
  · push_cast
    ring
  · rw [← hgrid]
    have : ((target : ℚ) - (start : ℚ)) = ((target - start : ℤ) : ℚ) := by push_cast; ring
    rw [this]
    calc |((target - start : ℤ) : ℚ)| ≤ 2 ^ (32 : ℕ) := hq
      _ < 2 ^ (33 : ℕ) := by norm_num

/-- The increment of the animation lies between two neighbouring multiples of `2 ^ (-20)`
that enclose the thirtieth of the distance. -/
theorem increment_enclosure (start target : Int) (hs : |start| ≤ 2 ^ 31)
    (ht : |target| ≤ 2 ^ 31) :
    ∃ lo hi : ℤ,
      (lo : ℚ) / 2 ^ (20 : ℕ) ≤ (animateCounter start target).increment
      ∧ (animateCounter start target).increment ≤ (hi : ℚ) / 2 ^ (20 : ℕ)
      ∧ (lo : ℚ) / 2 ^ (20 : ℕ) ≤ ((target - start : ℤ) : ℚ) / 30
      ∧ ((target - start : ℤ) : ℚ) / 30 ≤ (hi : ℚ) / 2 ^ (20 : ℕ)
      ∧ (hi : ℚ) / 2 ^ (20 : ℕ) - (lo : ℚ) / 2 ^ (20 : ℕ) ≤ 1 / 2 ^ (20 : ℕ)
      ∧ |(lo : ℚ) / 2 ^ (20 : ℕ)| ≤ 2 ^ (32 : ℕ) / 30 + 1
      ∧ |(hi : ℚ) / 2 ^ (20 : ℕ)| ≤ 2 ^ (32 : ℕ) / 30 + 1
      ∧ (0 ≤ target - start → 0 ≤ (lo : ℚ) / 2 ^ (20 : ℕ))
      ∧ (target - start ≤ 0 → (hi : ℚ) / 2 ^ (20 : ℕ) ≤ 0) := by
  have hd : |target - start| ≤ 2 ^ 32 := by
    rw [abs_le] at hs ht ⊢
    constructor <;> omega
  rw [abs_le] at hd
  -- floor and ceiling of the scaled quotient
  have hlo30 : 30 * ((target - start) * 2 ^ 20 / 30) ≤ (target - start) * 2 ^ 20 := by omega
  have hhi30 : (target - start) * 2 ^ 20 ≤ 30 * (-(-((target - start) * 2 ^ 20) / 30)) := by omega
  have hgap : -(-((target - start) * 2 ^ 20) / 30) ≤ (target - start) * 2 ^ 20 / 30 + 1 := by
    omega
  have hloQ : (((target - start) * 2 ^ 20 / 30 : ℤ) : ℚ) / 2 ^ (20 : ℕ)
      ≤ ((target - start : ℤ) : ℚ) / 30 := by
    have : (30 : ℚ) * (((target - start) * 2 ^ 20 / 30 : ℤ) : ℚ)
        ≤ ((target - start : ℤ) : ℚ) * 2 ^ (20 : ℕ) := by exact_mod_cast hlo30
    rw [div_le_div_iff₀ (by norm_num) (by norm_num)]
    linarith
  have hhiQ : ((target - start : ℤ) : ℚ) / 30
      ≤ ((-(-((target - start) * 2 ^ 20) / 30) : ℤ) : ℚ) / 2 ^ (20 : ℕ) := by
    have : ((target - start : ℤ) : ℚ) * 2 ^ (20 : ℕ)
        ≤ (30 : ℚ) * ((-(-((target - start) * 2 ^ 20) / 30) : ℤ) : ℚ) := by exact_mod_cast hhi30
    rw [div_le_div_iff₀ (by norm_num) (by norm_num)]
    linarith
  have hgapQ : ((-(-((target - start) * 2 ^ 20) / 30) : ℤ) : ℚ) / 2 ^ (20 : ℕ)
      - (((target - start) * 2 ^ 20 / 30 : ℤ) : ℚ) / 2 ^ (20 : ℕ) ≤ 1 / 2 ^ (20 : ℕ) := by
    have : ((-(-((target - start) * 2 ^ 20) / 30) : ℤ) : ℚ)
        ≤ (((target - start) * 2 ^ 20 / 30 : ℤ) : ℚ) + 1 := by exact_mod_cast hgap
    rw [← sub_div]
    apply div_le_div_of_nonneg_right _ (by norm_num)
    linarith
  have hdQ : |((target - start : ℤ) : ℚ) / 30| ≤ 2 ^ (32 : ℕ) / 30 := by
    rw [abs_div, abs_of_pos (by norm_num : (0 : ℚ) < 30)]
    apply div_le_div_of_nonneg_right _ (by norm_num)
    rw [abs_le]
    constructor
    · exact_mod_cast hd.1
    · exact_mod_cast hd.2
  rw [abs_le] at hdQ
  have hsmall : (1 : ℚ) / 2 ^ (20 : ℕ) ≤ 1 := by norm_num
  have hlob : |(((target - start) * 2 ^ 20 / 30 : ℤ) : ℚ) / 2 ^ (20 : ℕ)|
      ≤ 2 ^ (32 : ℕ) / 30 + 1 := by
    rw [abs_le]
    constructor <;> linarith
  have hhib : |((-(-((target - start) * 2 ^ 20) / 30) : ℤ) : ℚ) / 2 ^ (20 : ℕ)|
      ≤ 2 ^ (32 : ℕ) / 30 + 1 := by
    rw [abs_le]
    constructor <;> linarith
  have hinc : (animateCounter start target).increment
      = roundDouble (((target - start : ℤ) : ℚ) / 30) := by
    simp only [animateCounter]
    rw [roundDouble_sub_exact start target hs ht]
  have hxabs : |((target - start : ℤ) : ℚ) / 30| < 2 ^ (33 : ℕ) := by
    rw [abs_lt]
    constructor
    · have : (-(2 : ℚ) ^ (33 : ℕ)) < -(2 ^ (32 : ℕ) / 30) := by norm_num
      linarith
    · have : ((2 : ℚ) ^ (32 : ℕ) / 30) < 2 ^ (33 : ℕ) := by norm_num
      linarith
  refine ⟨(target - start) * 2 ^ 20 / 30, -(-((target - start) * 2 ^ 20) / 30), ?_, ?_, hloQ, hhiQ,
    hgapQ, hlob, hhib, ?_, ?_⟩
  · rw [hinc]
    exact grid_le_roundDouble _ _ hxabs hloQ
  · rw [hinc]
    exact roundDouble_le_grid _ _ hxabs hhiQ
  · intro h0
    apply div_nonneg _ (by norm_num)
    have : 0 ≤ (target - start) * 2 ^ 20 / 30 := by omega
    exact_mod_cast this
  · intro h0
    apply div_nonpos_of_nonpos_of_nonneg _ (by norm_num)
    have : -(-((target - start) * 2 ^ 20) / 30) ≤ 0 := by omega
    exact_mod_cast this

/-- The state of the animation while the timer runs. -/
theorem after_lt_thirty (start target : Int) (k : Nat) (hk : k < 30) :
    (animateCounter start target).after k
      = { targetValue := target
          increment := (animateCounter start target).increment
          current := runningSum start (animateCounter start target).increment k
          step := k
          textContent :=
            if k = 0 then start
            else ⌊runningSum start (animateCounter start target).increment k⌋
          timerActive := true } := by
  induction k with
  | zero => rfl
  | succ k ih =>
    rw [Counter.after, ih (by omega)]
    have hstep : ¬ (k + 1 ≥ 30) := by omega
    simp only [Counter.tick, Bool.not_true, Bool.false_eq_true, if_false, hstep, runningSum]
    simp

/-- The state of the animation once the timer has been cleared. -/
theorem after_ge_thirty (start target : Int) (n : Nat) (hn : 30 ≤ n) :
    (animateCounter start target).after n
      = { targetValue := target
          increment := (animateCounter start target).increment
          current := runningSum start (animateCounter start target).increment 30
          step := 30
          textContent := target
          timerActive := false } := by
  induction n with
  | zero => omega
  | succ n ih =>
    rw [Counter.after]
    by_cases h : n = 29
    · subst h
      rw [after_lt_thirty start target 29 (by omega)]
      simp [Counter.tick, runningSum]
    · rw [ih (by omega)]
      simp [Counter.tick]

/-- The running sum is within `30 / 2 ^ 20` of the exact interpolation and on the side of
the start value that faces the target. -/
theorem runningSum_near_interpolation (start target : Int) (hs : |start| ≤ 2 ^ 31)
    (ht : |target| ≤ 2 ^ 31) (k : Nat) (hk : k ≤ 30) :
    interpolation start target k - 30 / 2 ^ (20 : ℕ)
        ≤ runningSum start (animateCounter start target).increment k
    ∧ runningSum start (animateCounter start target).increment k
        ≤ interpolation start target k + 30 / 2 ^ (20 : ℕ)
    ∧ (0 ≤ target - start →
        (start : ℚ) ≤ runningSum start (animateCounter start target).increment k)
    ∧ (target - start ≤ 0 →
        runningSum start (animateCounter start target).increment k ≤ (start : ℚ)) := by
  obtain ⟨lo, hi, hlo, hhi, hloD, hhiD, hgap, hlob, hhib, hlo0, hhi0⟩ :=
    increment_enclosure start target hs ht
  have hsQ : |(start : ℚ)| ≤ 2 ^ (31 : ℕ) := by exact_mod_cast hs
  obtain ⟨hc1, hc2⟩ :=
    runningSum_between start (animateCounter start target).increment lo hi hsQ hlo hhi hlob hhib
      k hk
  have hk0 : (0 : ℚ) ≤ (k : ℚ) := by positivity
  have hk30 : (k : ℚ) ≤ 30 := by exact_mod_cast hk
  have hD : ((target - start : ℤ) : ℚ) = (target : ℚ) - (start : ℚ) := by push_cast; ring
  have hE : interpolation start target k
      = (start : ℚ) + (k : ℚ) * (((target - start : ℤ) : ℚ) / 30) := by
    unfold interpolation
    rw [hD]
    ring
  have h1 : (k : ℚ) * (((target - start : ℤ) : ℚ) / 30 - 1 / 2 ^ (20 : ℕ))
      ≤ (k : ℚ) * ((lo : ℚ) / 2 ^ (20 : ℕ)) :=
    mul_le_mul_of_nonneg_left (by linarith) hk0
  have h2 : (k : ℚ) * ((hi : ℚ) / 2 ^ (20 : ℕ))
      ≤ (k : ℚ) * (((target - start : ℤ) : ℚ) / 30 + 1 / 2 ^ (20 : ℕ)) :=
    mul_le_mul_of_nonneg_left (by linarith) hk0
  have h3 : (k : ℚ) * (1 / 2 ^ (20 : ℕ)) ≤ 30 / 2 ^ (20 : ℕ) := by
    have := mul_le_mul_of_nonneg_right hk30 (by norm_num : (0 : ℚ) ≤ 1 / 2 ^ (20 : ℕ))
    linarith
  refine ⟨?_, ?_, ?_, ?_⟩
  · rw [hE]
    linarith
  · rw [hE]
    linarith
  · intro hd
    have := mul_nonneg hk0 (hlo0 hd)
    linarith
  · intro hd
    have := mul_nonpos_of_nonneg_of_nonpos hk0 (hhi0 hd)
    linarith

/-- The floor of the running sum is the floor of the exact interpolation, or one less when
the interpolation is an integer. -/
theorem floor_runningSum (start target : Int) (hs : |start| ≤ 2 ^ 31)
    (ht : |target| ≤ 2 ^ 31) (k : Nat) (hk : k ≤ 30) :
    ⌊runningSum start (animateCounter start target).increment k⌋
        = ⌊interpolation start target k⌋
    ∨ (⌊runningSum start (animateCounter start target).increment k⌋
          = ⌊interpolation start target k⌋ - 1
        ∧ (30 : ℤ) ∣ (k : ℤ) * (target - start)) := by
  obtain ⟨hlow, hupp, _, _⟩ := runningSum_near_interpolation start target hs ht k hk
  -- thirty times the interpolation is an integer
  have hZ : interpolation start target k
      = ((30 * start + (k : ℤ) * (target - start) : ℤ) : ℚ) / 30 := by
    unfold interpolation
    push_cast
    ring
  obtain ⟨F, r, hF, hr0, hr29⟩ : ∃ F r : ℤ,
      30 * start + (k : ℤ) * (target - start) = 30 * F + r ∧ 0 ≤ r ∧ r ≤ 29 :=
    ⟨(30 * start + (k : ℤ) * (target - start)) / 30,
      (30 * start + (k : ℤ) * (target - start)) % 30, by omega, by omega, by omega⟩
  have hEF : interpolation start target k = (F : ℚ) + (r : ℚ) / 30 := by
    rw [hZ, hF]
    push_cast
    ring
  have hr0Q : (0 : ℚ) ≤ (r : ℚ) := by exact_mod_cast hr0
  have hr29Q : (r : ℚ) ≤ 29 := by exact_mod_cast hr29
  have hfloorE : ⌊interpolation start target k⌋ = F := by
    rw [Int.floor_eq_iff, hEF]
    constructor <;> linarith
  have hδ : (30 : ℚ) / 2 ^ (20 : ℕ) < 1 / 30 := by norm_num
  have hge : F - 1 ≤ ⌊runningSum start (animateCounter start target).increment k⌋ := by
    rw [Int.le_floor]
    push_cast
    linarith
  have hle : ⌊runningSum start (animateCounter start target).increment k⌋ < F + 1 := by
    rw [Int.floor_lt]
    push_cast
    linarith
  rw [hfloorE]
  by_cases hr : r = 0
  · rcases (by omega : ⌊runningSum start (animateCounter start target).increment k⌋ = F
        ∨ ⌊runningSum start (animateCounter start target).increment k⌋ = F - 1) with h | h
    · exact Or.inl h
    · refine Or.inr ⟨h, ?_⟩
      subst hr
      exact ⟨F - start, by linarith⟩
  · left
    have hr1 : (1 : ℚ) ≤ (r : ℚ) := by
      have : 1 ≤ r := by omega
      exact_mod_cast this
    have : F ≤ ⌊runningSum start (animateCounter start target).increment k⌋ := by
      rw [Int.le_floor]
      linarith
    omega

/-- C6, as amended. For every pair of integers `start` (the value shown) and `target` of at
most `2 ^ 31` in magnitude, including `target < start` and `target = start`, the callback
of `animateCounter` runs on each of the first 30 periods and never again: before tick 30
the step counter is the number of periods and the timer is active; on tick `k` with
`1 ≤ k < 30` the element shows the floor of the running double sum (`start` plus `k`
rounded additions of the rounded increment), which is `floor(start + k*(target-start)/30)`
or, only when that interpolation is an integer, one less, and which lies between
`min(start, target)` and `max(start, target)` inclusive; from tick 30 on the element shows
exactly `target`, the timer is cleared and nothing changes any more. -/
theorem animateCounter_frames (start target : Int) (hs : |start| ≤ 2 ^ 31)
    (ht : |target| ≤ 2 ^ 31) :
    (∀ k : Nat, k < 30 →
      ((animateCounter start target).after k).step = k
      ∧ ((animateCounter start target).after k).timerActive = true
      ∧ (1 ≤ k → ((animateCounter start target).after k).textContent
          = ⌊runningSum start (animateCounter start target).increment k⌋)
      ∧ (((animateCounter start target).after k).textContent = ⌊interpolation start target k⌋
          ∨ (((animateCounter start target).after k).textContent
                = ⌊interpolation start target k⌋ - 1
              ∧ (30 : ℤ) ∣ (k : ℤ) * (target - start)))
      ∧ min start target ≤ ((animateCounter start target).after k).textContent
      ∧ ((animateCounter start target).after k).textContent ≤ max start target)
    ∧ (∀ n : Nat, 30 ≤ n →
      ((animateCounter start target).after n).step = 30
      ∧ ((animateCounter start target).after n).textContent = target
      ∧ ((animateCounter start target).after n).timerActive = false
      ∧ (animateCounter start target).after (n + 1) = (animateCounter start target).after n) := by
  constructor
  · intro k hk
    rw [after_lt_thirty start target k hk]
    refine ⟨rfl, rfl, ?_, ?_, ?_, ?_⟩
    · intro hk1
      have : k ≠ 0 := by omega
      simp [this]
    · by_cases hk0 : k = 0
      · subst hk0
        left
        simp [interpolation]
      · simp only [hk0, if_false]
        exact floor_runningSum start target hs ht k (by omega)
    · by_cases hk0 : k = 0
      · subst hk0
        simp
      · simp only [hk0, if_false]
        obtain ⟨hlow, _, hpos, _⟩ := runningSum_near_interpolation start target hs ht k (by omega)
        rw [Int.le_floor]
        by_cases hd : 0 ≤ target - start
        · have hmin : min start target = start := min_eq_left (by omega)
          rw [hmin]
          exact hpos hd
        · have hmin : min start target = target := min_eq_right (by omega)
          rw [hmin]
          -- the interpolation is at least a thirtieth of the distance above the target
          have hkQ : (k : ℚ) ≤ 29 := by
            have : k ≤ 29 := by omega
            exact_mod_cast this
          have hdQ : (target : ℚ) - (start : ℚ) ≤ -1 := by
            have : target - start ≤ -1 := by omega
            exact_mod_cast this
          have hmul : (29 - (k : ℚ)) * ((target : ℚ) - (start : ℚ)) ≤ 0 :=
            mul_nonpos_of_nonneg_of_nonpos (by linarith) (by linarith)
          have hE : (target : ℚ) + 1 / 30 ≤ interpolation start target k := by
            unfold interpolation
            linarith
          have hδ : (30 : ℚ) / 2 ^ (20 : ℕ) < 1 / 30 := by norm_num
          linarith
    · by_cases hk0 : k = 0
      · subst hk0
        simp
      · simp only [hk0, if_false]
        obtain ⟨_, hupp, _, hneg⟩ := runningSum_near_interpolation start target hs ht k (by omega)
        by_cases hd : target - start ≤ 0
        · have hmax : max start target = start := max_eq_left (by omega)
          rw [hmax]
          have := Int.floor_le (runningSum start (animateCounter start target).increment k)
          have h2 := hneg hd
          have h3 : (⌊runningSum start (animateCounter start target).increment k⌋ : ℚ)
              ≤ (start : ℚ) := le_trans this h2
          exact_mod_cast h3
        · have hmax : max start target = target := max_eq_right (by omega)
          rw [hmax]
          have hkQ : (k : ℚ) ≤ 30 := by
            have : k ≤ 30 := by omega
            exact_mod_cast this
          have hdQ : (0 : ℚ) ≤ (target : ℚ) - (start : ℚ) := by
            have : 0 ≤ target - start := by omega
            exact_mod_cast this
          have hmul : 0 ≤ (30 - (k : ℚ)) * ((target : ℚ) - (start : ℚ)) :=
            mul_nonneg (by linarith) hdQ
          have hE : interpolation start target k ≤ (target : ℚ) := by
            unfold interpolation
            linarith
          have hδ : (30 : ℚ) / 2 ^ (20 : ℕ) < 1 := by norm_num
          have hlt : ⌊runningSum start (animateCounter start target).increment k⌋
              < target + 1 := by
            rw [Int.floor_lt]
            push_cast
            linarith
          omega
  · intro n hn
    rw [after_ge_thirty start target n hn, after_ge_thirty start target (n + 1) (by omega)]
    exact ⟨rfl, rfl, rfl, rfl⟩

/-- A number strictly within one half of an integer rounds to it. -/
theorem roundHalfEven_eq_of_near (y : ℚ) (m : ℤ) (h1 : (m : ℚ) - 1 / 2 < y)
    (h2 : y < (m : ℚ) + 1 / 2) : roundHalfEven y = m := by
  have hle := roundHalfEven_le y (m + 1) (by push_cast; linarith)
  have hge := le_roundHalfEven y (m - 1) (by push_cast; linarith)
  unfold roundHalfEven at *
  by_cases hy : (m : ℚ) ≤ y
  · have hfl : ⌊y⌋ = m := by
      rw [Int.floor_eq_iff]
      constructor <;> linarith
    have hfrac : y - (⌊y⌋ : ℚ) < 1 / 2 := by rw [hfl]; linarith
    rw [if_pos hfrac, hfl]
  · have hfl : ⌊y⌋ = m - 1 := by
      rw [Int.floor_eq_iff]
      push_cast
      constructor <;> linarith
    have hfrac : ¬ (y - (⌊y⌋ : ℚ) < 1 / 2) := by rw [hfl]; push_cast; linarith
    have hfrac' : 1 / 2 < y - (⌊y⌋ : ℚ) := by rw [hfl]; push_cast; linarith
    rw [if_neg hfrac, if_pos hfrac', hfl]
    ring

/-- The double nearest to a positive number of known binade that is strictly within half a
unit in the last place of a multiple of the unit. -/
theorem roundDouble_eq_of_near (x : ℚ) (p m : ℤ) (hlo : (2 : ℚ) ^ p ≤ x)
    (hhi : x < (2 : ℚ) ^ (p + 1)) (h1 : (m : ℚ) - 1 / 2 < x / 2 ^ (p - 52))
    (h2 : x / 2 ^ (p - 52) < (m : ℚ) + 1 / 2) : roundDouble x = (m : ℚ) * 2 ^ (p - 52) := by
  have hpos : 0 < x := lt_of_lt_of_le (zpow_pos (by norm_num) p) hlo
  have habs : |x| = x := abs_of_pos hpos
  have hlog : Int.log 2 |x| = p := by
    rw [habs]
    apply le_antisymm
    · have : Int.log 2 x < p + 1 := by
        rw [← Int.lt_zpow_iff_log_lt (by norm_num) hpos]
        exact_mod_cast hhi
      omega
    · rw [← Int.zpow_le_iff_le_log (by norm_num) hpos]
      exact_mod_cast hlo
  unfold roundDouble
  rw [if_neg (ne_of_gt hpos), hlog, roundHalfEven_eq_of_near _ m h1 h2]

/-- C6 fails as stated. Animating from `1` to `11`, the increment is the double nearest to
one third, which is below one third, and three rounded additions give
`1.9999999999999998`: tick 3 shows `1`, whereas `floor(1 + 3 * (11 - 1) / 30)` is `2`. -/
theorem third_frame_one_to_eleven :
    ((animateCounter 1 11).after 3).current = 9007199254740991 / 4503599627370496
    ∧ ((animateCounter 1 11).after 3).textContent = 1
    ∧ ⌊interpolation 1 11 3⌋ = 2
    ∧ ((animateCounter 1 11).after 3).textContent ≠ ⌊interpolation 1 11 3⌋ := by
  have hinc : (animateCounter 1 11).increment = 6004799503160661 / 18014398509481984 := by
    simp only [animateCounter]
    rw [roundDouble_sub_exact 1 11 (by norm_num) (by norm_num)]
    rw [roundDouble_eq_of_near _ (-2) 6004799503160661 (by norm_num) (by norm_num)
      (by norm_num) (by norm_num)]
    norm_num
  have h1 : roundDouble ((1 : ℚ) + 6004799503160661 / 18014398509481984)
      = 6004799503160661 / 4503599627370496 := by
    rw [roundDouble_eq_of_near _ 0 6004799503160661 (by norm_num) (by norm_num)
      (by norm_num) (by norm_num)]
    norm_num
  have h2 : roundDouble ((6004799503160661 : ℚ) / 4503599627370496
        + 6004799503160661 / 18014398509481984)
      = 7505999378950826 / 4503599627370496 := by
    rw [roundDouble_eq_of_near _ 0 7505999378950826 (by norm_num) (by norm_num)
      (by norm_num) (by norm_num)]
    norm_num
  have h3 : roundDouble ((7505999378950826 : ℚ) / 4503599627370496
        + 6004799503160661 / 18014398509481984)
      = 9007199254740991 / 4503599627370496 := by
    rw [roundDouble_eq_of_near _ 0 9007199254740991 (by norm_num) (by norm_num)
      (by norm_num) (by norm_num)]
    norm_num
  have hsum : runningSum ((1 : ℤ) : ℚ) (animateCounter 1 11).increment 3
      = 9007199254740991 / 4503599627370496 := by
    rw [hinc]
    simp only [runningSum]
    push_cast
    rw [h1, h2, h3]
  have hfloor : ⌊((9007199254740991 : ℚ) / 4503599627370496)⌋ = 1 := by
    rw [Int.floor_eq_iff]
    constructor <;> norm_num
  have hint : ⌊interpolation 1 11 3⌋ = 2 := by
    rw [Int.floor_eq_iff]
    unfold interpolation
    constructor <;> norm_num
  have hafter := after_lt_thirty 1 11 3 (by norm_num)
  have htext : ((animateCounter 1 11).after 3).textContent = 1 := by
    rw [hafter]
    simp only [OfNat.ofNat_ne_zero, if_false]
    rw [hsum, hfloor]
  refine ⟨?_, htext, hint, ?_⟩
  · rw [hafter]
    exact hsum
  · rw [htext, hint]
    decide

/-- C6, as amended, on the animation from `1` to `11`: every frame before tick 30 lies
between `1` and `11`, tick 30 shows `11`, and fifteen periods later the element still
shows `11` with the timer cleared. -/
theorem animateCounter_frames_witness :
    |(1 : ℤ)| ≤ 2 ^ 31 ∧ |(11 : ℤ)| ≤ 2 ^ 31
    ∧ (∀ k : Nat, k < 30 →
        min 1 11 ≤ ((animateCounter 1 11).after k).textContent
        ∧ ((animateCounter 1 11).after k).textContent ≤ max 1 11)
    ∧ ((animateCounter 1 11).after 30).textContent = 11
    ∧ ((animateCounter 1 11).after 45).textContent = 11
    ∧ ((animateCounter 1 11).after 45).timerActive = false :=
  ⟨by norm_num, by norm_num,
    fun k hk =>
      ⟨((animateCounter_frames 1 11 (by norm_num) (by norm_num)).1 k hk).2.2.2.2.1,
        ((animateCounter_frames 1 11 (by norm_num) (by norm_num)).1 k hk).2.2.2.2.2⟩,
    ((animateCounter_frames 1 11 (by norm_num) (by norm_num)).2 30 (by norm_num)).2.1,
    ((animateCounter_frames 1 11 (by norm_num) (by norm_num)).2 45 (by norm_num)).2.1,
    ((animateCounter_frames 1 11 (by norm_num) (by norm_num)).2 45 (by norm_num)).2.2.1⟩

/-- A number half way between two integers rounds to the even one. -/
theorem roundHalfEven_tie (m : ℤ) :
    roundHalfEven ((m : ℚ) + 1 / 2) = if m % 2 = 0 then m else m + 1 := by
  have hfl : ⌊(m : ℚ) + 1 / 2⌋ = m := by
    rw [Int.floor_eq_iff]
    constructor <;> linarith
  unfold roundHalfEven
  rw [hfl]
  have h1 : ¬ ((m : ℚ) + 1 / 2 - (m : ℚ) < 1 / 2) := by linarith
  have h2 : ¬ (1 / 2 < (m : ℚ) + 1 / 2 - (m : ℚ)) := by linarith
  rw [if_neg h1, if_neg h2]

/-- The rounding agrees with two familiar facts about doubles: the double written `0.1`
is `3602879701896397 / 2 ^ 55`, and `0.1 + 0.2`, a tie between two doubles, is
`0.30000000000000004`, that is `5404319552844596 / 2 ^ 54`. -/
theorem roundDouble_familiar :
    roundDouble (1 / 10) = 3602879701896397 / 36028797018963968
    ∧ roundDouble (2 / 10) = 3602879701896397 / 18014398509481984
    ∧ roundDouble (roundDouble (1 / 10) + roundDouble (2 / 10))
        = 5404319552844596 / 18014398509481984 := by
  have h1 : roundDouble (1 / 10) = 3602879701896397 / 36028797018963968 := by
    rw [roundDouble_eq_of_near _ (-4) 7205759403792794 (by norm_num) (by norm_num)
      (by norm_num) (by norm_num)]
    norm_num
  have h2 : roundDouble (2 / 10) = 3602879701896397 / 18014398509481984 := by
    rw [roundDouble_eq_of_near _ (-3) 7205759403792794 (by norm_num) (by norm_num)
      (by norm_num) (by norm_num)]
    norm_num
  refine ⟨h1, h2, ?_⟩
  rw [h1, h2]
  have hpos : (0 : ℚ) < 3602879701896397 / 36028797018963968
      + 3602879701896397 / 18014398509481984 := by norm_num
  have hlog : Int.log 2 |(3602879701896397 : ℚ) / 36028797018963968
      + 3602879701896397 / 18014398509481984| = -2 := by
    rw [abs_of_pos hpos]
    apply le_antisymm
    · have : Int.log 2 ((3602879701896397 : ℚ) / 36028797018963968
          + 3602879701896397 / 18014398509481984) < -2 + 1 := by
        rw [← Int.lt_zpow_iff_log_lt (by norm_num) hpos]
        norm_num
      omega
    · rw [← Int.zpow_le_iff_le_log (by norm_num) hpos]
      norm_num
  unfold roundDouble
  rw [if_neg (ne_of_gt hpos), hlog]
  have htie : ((3602879701896397 : ℚ) / 36028797018963968
      + 3602879701896397 / 18014398509481984) / 2 ^ ((-2 : ℤ) - 52)
      = ((5404319552844595 : ℤ) : ℚ) + 1 / 2 := by norm_num
  rw [htie, roundHalfEven_tie]
  norm_num

/-! ### Further properties of the cycle -/

/-- Creating or resetting one key adds at most one property. -/
theorem length_set_le {α : Type} (o : JsObject α) (k : String) (v : α) :
    (o.set k v).length ≤ o.length + 1 := by
  unfold JsObject.set
  split <;> simp

/-- The loop "Initialize last 30 days" creates at most one key for each index. -/
theorem initLoop_length_le (tz : TimeZone) (today : Int) (indices : List Nat)
    (o window : JsObject Nat)
    (h : (indices.foldlM
        (fun (contributionsByDate : JsObject Nat) (i : Nat) => do
          let date := setDate tz today (getDate tz today - (i : Int))
          let iso ← toISOString date
          pure (contributionsByDate.set (splitT0 iso) 0))
        o : Except JsError (JsObject Nat)) = Except.ok window) :
    window.length ≤ o.length + indices.length := by
  induction indices generalizing o with
  | nil =>
    simp only [List.foldlM_nil, pure, Except.pure, Except.ok.injEq] at h
    rw [← h]
    simp
  | cons i indices ih =>
    rw [List.foldlM_cons] at h
    cases hiso : toISOString (setDate tz today (getDate tz today - (i : Int))) with
    | error err =>
      simp only [hiso, bind, Except.bind] at h
      cases h
    | ok iso =>
      simp only [hiso, bind, Except.bind, pure, Except.pure] at h
      have h1 := ih _ h
      have h2 := length_set_le o (splitT0 iso) 0
      simp only [List.length_cons]
      omega

/-- In every time zone, at every time and for every list of fetched events, the mapping
handed to `createContributionChart` has at most 30 entries and the events add or remove
none: its keys are the ones the loop "Initialize last 30 days" created. -/
theorem window_keys_fixed_and_at_most_thirty (tz : TimeZone) (today : Int)
    (eventsData : List Event) (window : JsObject Nat) (contributionsByDate : JsObject Nat)
    (totalCommits : Nat) (hw : initWindow tz today = .ok window)
    (h : countContributions tz today eventsData = .ok (contributionsByDate, totalCommits)) :
    contributionsByDate.map (fun e => e.1) = window.map (fun e => e.1)
    ∧ contributionsByDate.length ≤ 30 := by
  unfold countContributions at h
  rw [hw] at h
  simp only [bind, Except.bind, pure, Except.pure, Except.ok.injEq] at h
  have hk := (foldl_countEvent eventsData (window, 0)).1
  rw [h] at hk
  refine ⟨hk, ?_⟩
  have hlen : contributionsByDate.length = window.length := by
    have := congrArg List.length hk
    simpa using this
  have := initLoop_length_le tz today _ [] window hw
  simp at this
  omega

/-- The window at noon UTC on 6 November 2026 with the two sample events. -/
theorem window_keys_fixed_and_at_most_thirty_witness :
    initWindow (fixedZone 0) sampleToday = .ok sampleWindow
    ∧ ∃ o total, countContributions (fixedZone 0) sampleToday sampleEvents = .ok (o, total)
        ∧ o.map (fun e => e.1) = sampleWindow.map (fun e => e.1) ∧ o.length ≤ 30 := by
  refine ⟨initWindow_sample, (sampleEvents.foldl countEvent (sampleWindow, 0)).1,
    (sampleEvents.foldl countEvent (sampleWindow, 0)).2, ?_, ?_⟩
  · unfold countContributions
    rw [initWindow_sample]
    rfl
  · exact window_keys_fixed_and_at_most_thirty (fixedZone 0) sampleToday sampleEvents sampleWindow
      _ _ initWindow_sample (by unfold countContributions; rw [initWindow_sample]; rfl)

/-- When the events request is rejected or does not parse, `fetchContributionsAndCreateChart`
writes "N/A" into `#commits-count` and touches nothing else; in a cycle whose two primary
requests succeeded, the profile fields, the language chart and the repository chart are
then still written and no exception escapes. -/
theorem contributions_failure_is_contained (env : Env) (userData : UserData)
    (reposData : List Repo) (p : Page) :
    fetchContributionsAndCreateChart env .rejected p
        = { p with counterWrites := p.counterWrites ++ [("commits-count", .text "N/A")] }
    ∧ fetchContributionsAndCreateChart env .unparsable p
        = { p with counterWrites := p.counterWrites ++ [("commits-count", .text "N/A")] }
    ∧ (fetchGitHubData env (.ok userData) (.ok reposData) .rejected p).1 = .ok ()
    ∧ (fetchGitHubData env (.ok userData) (.ok reposData) .rejected p).2.githubName
        = orElse userData.name userData.login
    ∧ (fetchGitHubData env (.ok userData) (.ok reposData) .rejected p).2.contributionChart
        = p.contributionChart
    ∧ (fetchGitHubData env (.ok userData) (.ok reposData) .rejected p).2.languagesChart
        = (createLanguagesChart reposData p).languagesChart
    ∧ (fetchGitHubData env (.ok userData) (.ok reposData) .rejected p).2.repoStatsChart
        = (createRepoStatsChart reposData p).repoStatsChart := by
  refine ⟨rfl, rfl, rfl, ?_, ?_, ?_, ?_⟩
  · simp only [fetchGitHubData, fetchGitHubData_try, Fetched.await]
    simp only [hideLoadingState, updateLastRefreshTime, createRepoStatsChart, createLanguagesChart,
      fetchContributionsAndCreateChart, displayRecentRepos, Page.animateCounter, showLoadingState,
      Fetched.await, bind, Except.bind]
    cases p.reposGrid <;> cases p.languagesCanvas <;> cases p.repoStatsCanvas <;> rfl
  · simp only [fetchGitHubData, fetchGitHubData_try, Fetched.await]
    simp only [hideLoadingState, updateLastRefreshTime, createRepoStatsChart, createLanguagesChart,
      fetchContributionsAndCreateChart, displayRecentRepos, Page.animateCounter, showLoadingState,
      Fetched.await, bind, Except.bind]
    cases p.reposGrid <;> cases p.languagesCanvas <;> cases p.repoStatsCanvas <;> rfl
  · simp only [fetchGitHubData, fetchGitHubData_try, Fetched.await]
    simp only [hideLoadingState, updateLastRefreshTime, createRepoStatsChart, createLanguagesChart,
      fetchContributionsAndCreateChart, displayRecentRepos, Page.animateCounter, showLoadingState,
      Fetched.await, bind, Except.bind]
    cases p.reposGrid <;> cases p.languagesCanvas <;> cases p.repoStatsCanvas <;> rfl
  · simp only [fetchGitHubData, fetchGitHubData_try, Fetched.await]
    simp only [hideLoadingState, updateLastRefreshTime, createRepoStatsChart, createLanguagesChart,
      fetchContributionsAndCreateChart, displayRecentRepos, Page.animateCounter, showLoadingState,
      Fetched.await, bind, Except.bind]
    cases p.reposGrid <;> cases p.languagesCanvas <;> cases p.repoStatsCanvas <;> rfl

/-- The recent-repository list shows the first six fetched repositories, or all of them if
there are fewer, in the order fetched. -/
theorem recent_repos_are_first_six (env : Env) (reposData : List Repo) (p : Page)
    (cards : List RepoCard) :
    ((displayRecentRepos env (reposData.take 6) { p with reposGrid := some cards }).reposGrid.map
        (fun g => g.length)) = some (min 6 reposData.length)
    ∧ ((displayRecentRepos env (reposData.take 6) { p with reposGrid := some cards }).reposGrid.map
        (fun g => g.map (fun c => c.name))) = some ((reposData.take 6).map (fun r => r.name))
    ∧ displayRecentRepos env (reposData.take 6) { p with reposGrid := none }
        = { p with reposGrid := none } := by
  refine ⟨?_, ?_, rfl⟩
  · simp [displayRecentRepos]
  · simp [displayRecentRepos, Function.comp_def]

/-- A successful cycle after a failed one leaves the page exactly as the same successful
cycle would have left it without the failure: the fallback texts are overwritten and
nothing else of the failed cycle remains. -/
theorem successful_cycle_recovers (env : Env) (userData : UserData) (reposData : List Repo)
    (events : Fetched (List Event)) (failedUser : Fetched UserData)
    (failedRepos : Fetched (List Repo)) (failedEvents : Fetched (List Event)) (p : Page)
    (h : (failedUser = .rejected ∨ failedUser = .unparsable)
      ∨ (failedRepos = .rejected ∨ failedRepos = .unparsable)) :
    fetchGitHubData env (.ok userData) (.ok reposData) events
        (fetchGitHubData env failedUser failedRepos failedEvents p).2
      = fetchGitHubData env (.ok userData) (.ok reposData) events p := by
  rw [fetchGitHubData_of_failure env failedUser failedRepos failedEvents p h]
  simp only [fetchGitHubData, fetchGitHubData_try, Fetched.await, showLoadingState,
    List.map_map]
  rfl

/-- A rejected user request on the sample page, then a cycle that succeeds. -/
theorem successful_cycle_recovers_witness :
    (fetchGitHubData sampleEnv (.ok sampleUser) (.ok sampleRepos) (.ok sampleEvents)
        (fetchGitHubData sampleEnv .rejected (.ok sampleRepos) (.ok sampleEvents) samplePage).2).2.githubName
      = "Collins Munufie" := by
  rw [successful_cycle_recovers sampleEnv sampleUser sampleRepos (.ok sampleEvents) .rejected
    (.ok sampleRepos) (.ok sampleEvents) samplePage (Or.inl (Or.inl rfl))]
  decide!

/-! ### The calendar -/

/-- The year of the era does not decrease from one day to the next. -/
theorem yearOfEra_mono_step (x : Int) :
    (x - x / 1460 + x / 36524 - x / 146096) / 365
      ≤ ((x + 1) - (x + 1) / 1460 + (x + 1) / 36524 - (x + 1) / 146096) / 365 := by
  omega

/-- The year of the era does not decrease with the day. -/
theorem yearOfEra_mono (x y : Int) (h : x ≤ y) :
    (x - x / 1460 + x / 36524 - x / 146096) / 365
      ≤ (y - y / 1460 + y / 36524 - y / 146096) / 365 := by
  have hk : ∀ k : Nat,
      (x - x / 1460 + x / 36524 - x / 146096) / 365
        ≤ ((x + k) - (x + k) / 1460 + (x + k) / 36524 - (x + k) / 146096) / 365 := by
    intro k
    induction k with
    | zero => simp
    | succ k ih =>
      have hstep := yearOfEra_mono_step (x + k)
      have hcast : x + ((k + 1 : ℕ) : Int) = x + (k : Int) + 1 := by push_cast; ring
      rw [hcast]
      exact le_trans ih hstep
  have hy : y = x + ((y - x).toNat : Int) := by
    rw [Int.toNat_of_nonneg (by omega)]
    ring
  rw [hy]
  exact hk _

/-- The first and the last day of each of the 400 years of an era are given that year. -/
theorem yearOfEra_endpoints_check :
    (List.range 400).all (fun b =>
      decide (((365 * (b : Int) + (b : Int) / 4 - (b : Int) / 100)
          - (365 * (b : Int) + (b : Int) / 4 - (b : Int) / 100) / 1460
          + (365 * (b : Int) + (b : Int) / 4 - (b : Int) / 100) / 36524
          - (365 * (b : Int) + (b : Int) / 4 - (b : Int) / 100) / 146096) / 365 = (b : Int))
      && decide (((if b = 399 then (146096 : Int)
            else 365 * ((b : Int) + 1) + ((b : Int) + 1) / 4 - ((b : Int) + 1) / 100 - 1)
          - (if b = 399 then (146096 : Int)
            else 365 * ((b : Int) + 1) + ((b : Int) + 1) / 4 - ((b : Int) + 1) / 100 - 1) / 1460
          + (if b = 399 then (146096 : Int)
            else 365 * ((b : Int) + 1) + ((b : Int) + 1) / 4 - ((b : Int) + 1) / 100 - 1) / 36524
          - (if b = 399 then (146096 : Int)
            else 365 * ((b : Int) + 1) + ((b : Int) + 1) / 4 - ((b : Int) + 1) / 100 - 1) / 146096)
          / 365 = (b : Int))) = true := by
  decide!

/-- The first day of year `b` of an era belongs to year `b`. -/
theorem yearOfEra_first (b : Int) (h0 : 0 ≤ b) (h1 : b ≤ 399) :
    ((365 * b + b / 4 - b / 100) - (365 * b + b / 4 - b / 100) / 1460
      + (365 * b + b / 4 - b / 100) / 36524 - (365 * b + b / 4 - b / 100) / 146096) / 365 = b := by
  have h := yearOfEra_endpoints_check
  rw [List.all_eq_true] at h
  have hb := h b.toNat (List.mem_range.mpr (by omega))
  simp only [Bool.and_eq_true, decide_eq_true_eq] at hb
  have hcast : ((b.toNat : ℕ) : Int) = b := Int.toNat_of_nonneg h0
  rw [hcast] at hb
  exact hb.1

/-- The last day of year `b < 399` of an era belongs to year `b`. -/
theorem yearOfEra_last (b : Int) (h0 : 0 ≤ b) (h1 : b < 399) :
    ((365 * (b + 1) + (b + 1) / 4 - (b + 1) / 100 - 1)
      - (365 * (b + 1) + (b + 1) / 4 - (b + 1) / 100 - 1) / 1460
      + (365 * (b + 1) + (b + 1) / 4 - (b + 1) / 100 - 1) / 36524
      - (365 * (b + 1) + (b + 1) / 4 - (b + 1) / 100 - 1) / 146096) / 365 = b := by
  have h := yearOfEra_endpoints_check
  rw [List.all_eq_true] at h
  have hb := h b.toNat (List.mem_range.mpr (by omega))
  simp only [Bool.and_eq_true, decide_eq_true_eq] at hb
  have hcast : ((b.toNat : ℕ) : Int) = b := Int.toNat_of_nonneg h0
  have hne : ¬ (b.toNat = 399) := by omega
  rw [if_neg hne, hcast] at hb
  exact hb.2

/-- The day of the year computed from the day of the era lies in `0..365`. -/
theorem dayOfYear_bounds (doe : Int) (h0 : 0 ≤ doe) (h1 : doe ≤ 146096) :
    0 ≤ doe - (365 * ((doe - doe / 1460 + doe / 36524 - doe / 146096) / 365)
          + (doe - doe / 1460 + doe / 36524 - doe / 146096) / 365 / 4
          - (doe - doe / 1460 + doe / 36524 - doe / 146096) / 365 / 100)
    ∧ doe - (365 * ((doe - doe / 1460 + doe / 36524 - doe / 146096) / 365)
          + (doe - doe / 1460 + doe / 36524 - doe / 146096) / 365 / 4
          - (doe - doe / 1460 + doe / 36524 - doe / 146096) / 365 / 100) ≤ 365 := by
  have hb0 : 0 ≤ (doe - doe / 1460 + doe / 36524 - doe / 146096) / 365 := by omega
  have hb1 : (doe - doe / 1460 + doe / 36524 - doe / 146096) / 365 ≤ 399 := by omega
  generalize hb : (doe - doe / 1460 + doe / 36524 - doe / 146096) / 365 = b at hb0 hb1 ⊢
  constructor
  · by_contra hlt
    have hb1' : 1 ≤ b := by omega
    have hlast := yearOfEra_last (b - 1) (by omega) (by omega)
    have hmono := yearOfEra_mono doe (365 * (b - 1 + 1) + (b - 1 + 1) / 4 - (b - 1 + 1) / 100 - 1)
      (by
        have : b - 1 + 1 = b := by omega
        rw [this]
        omega)
    rw [hb, hlast] at hmono
    omega
  · by_cases h399 : b = 399
    · subst h399
      omega
    · by_contra hgt
      have hfirst := yearOfEra_first (b + 1) (by omega) (by omega)
      have hmono := yearOfEra_mono (365 * (b + 1) + (b + 1) / 4 - (b + 1) / 100) doe (by omega)
      rw [hb, hfirst] at hmono
      omega

/-- Reading a date back, given the year of the era and the day of the year. -/
theorem daysFromCivil_of_parts (z era doe yoe doy : Int)
    (hz : z + 719468 = era * 146097 + doe) (hyoe0 : 0 ≤ yoe) (hyoe : yoe ≤ 399)
    (hdoy0 : 0 ≤ doy) (hdoy : doy ≤ 365)
    (hdoe : doe = 365 * yoe + yoe / 4 - yoe / 100 + doy) :
    daysFromCivil
        (if (if (5 * doy + 2) / 153 < 10 then (5 * doy + 2) / 153 + 3
              else (5 * doy + 2) / 153 - 9) ≤ 2
          then yoe + era * 400 + 1 else yoe + era * 400)
        (if (5 * doy + 2) / 153 < 10 then (5 * doy + 2) / 153 + 3 else (5 * doy + 2) / 153 - 9) 1
      + (doy - (153 * ((5 * doy + 2) / 153) + 2) / 5 + 1) - 1 = z := by
  simp only [daysFromCivil]
  omega

/-- The date of a day number read back: the first of its month plus its day of month is the
day number, and the month is one of the twelve. -/
theorem daysFromCivil_civilFromDays (z : Int) :
    daysFromCivil (civilFromDays z).1 (civilFromDays z).2.1 1 + (civilFromDays z).2.2 - 1 = z
    ∧ 1 ≤ (civilFromDays z).2.1 ∧ (civilFromDays z).2.1 ≤ 12 := by
  have hdoe0 : 0 ≤ (z + 719468) % 146097 := by omega
  have hdoe1 : (z + 719468) % 146097 ≤ 146096 := by omega
  obtain ⟨hd0, hd1⟩ := dayOfYear_bounds _ hdoe0 hdoe1
  have hy0 : 0 ≤ ((z + 719468) % 146097 - (z + 719468) % 146097 / 1460
      + (z + 719468) % 146097 / 36524 - (z + 719468) % 146097 / 146096) / 365 := by omega
  have hy1 : ((z + 719468) % 146097 - (z + 719468) % 146097 / 1460
      + (z + 719468) % 146097 / 36524 - (z + 719468) % 146097 / 146096) / 365 ≤ 399 := by omega
  have key := daysFromCivil_of_parts z ((z + 719468) / 146097) ((z + 719468) % 146097)
    (((z + 719468) % 146097 - (z + 719468) % 146097 / 1460
      + (z + 719468) % 146097 / 36524 - (z + 719468) % 146097 / 146096) / 365)
    ((z + 719468) % 146097 - (365 * (((z + 719468) % 146097 - (z + 719468) % 146097 / 1460
      + (z + 719468) % 146097 / 36524 - (z + 719468) % 146097 / 146096) / 365)
      + ((z + 719468) % 146097 - (z + 719468) % 146097 / 1460
      + (z + 719468) % 146097 / 36524 - (z + 719468) % 146097 / 146096) / 365 / 4
      - ((z + 719468) % 146097 - (z + 719468) % 146097 / 1460
      + (z + 719468) % 146097 / 36524 - (z + 719468) % 146097 / 146096) / 365 / 100))
    (by omega) hy0 hy1 hd0 hd1 (by omega)
  refine ⟨key, ?_, ?_⟩
  · simp only [civilFromDays]
    split_ifs <;> omega
  · simp only [civilFromDays]
    split_ifs <;> omega

/-- In a time zone with a constant offset from UTC (no daylight saving), iteration `i` of the
loop "Initialize last 30 days" moves the date back by exactly `i` days of 24 hours, and the
UTC day of the result is the `i`-th day before the UTC day of `today`: the loop names the
30 consecutive UTC days that end today, whatever the offset, the time and the events. -/
theorem window_days_consecutive_in_fixed_zone (offset today : Int) (i : Nat) :
    setDate (fixedZone offset) today (getDate (fixedZone offset) today - (i : Int))
        = TimeClip (today - (i : Int) * msPerDay)
    ∧ Day (today - (i : Int) * msPerDay) = Day today - (i : Int)
    ∧ toISOString
          (setDate (fixedZone offset) today (getDate (fixedZone offset) today - (i : Int)))
        = toISOString (TimeClip (today - (i : Int) * msPerDay)) := by
  have hset : setDate (fixedZone offset) today (getDate (fixedZone offset) today - (i : Int))
      = TimeClip (today - (i : Int) * msPerDay) := by
    obtain ⟨hrt, hm1, hm12⟩ := daysFromCivil_civilFromDays (Day (today + offset))
    have hq : ((civilFromDays (Day (today + offset))).2.1 - 1) / 12 = 0 := by omega
    have hr : ((civilFromDays (Day (today + offset))).2.1 - 1) % 12 + 1
        = (civilFromDays (Day (today + offset))).2.1 := by omega
    simp only [setDate, getDate, LocalTime, UTC, fixedZone, MakeDay, MakeDate, YearFromTime,
      MonthFromTime, DateFromTime, TimeWithinDay]
    rw [hq, hr, add_zero]
    congr 1
    have hday : daysFromCivil (civilFromDays (Day (today + offset))).1
        (civilFromDays (Day (today + offset))).2.1 1
        + ((civilFromDays (Day (today + offset))).2.2 - (i : Int)) - 1
        = Day (today + offset) - (i : Int) := by omega
    rw [hday]
    have hdiv := Int.ediv_add_emod (today + offset) msPerDay
    unfold Day
    have hmul : ((today + offset) / msPerDay - (i : Int)) * msPerDay
        = msPerDay * ((today + offset) / msPerDay) - (i : Int) * msPerDay := by ring
    rw [hmul]
    omega
  refine ⟨hset, ?_, by rw [hset]⟩
  unfold Day msPerDay
  omega

/-- In a time zone with a constant offset, the loop "Initialize last 30 days" throws nothing
when the clock is at least 30 days inside the range of valid dates. -/
theorem initLoop_ok_in_fixed_zone (offset today : Int)
    (hrange : today.natAbs + 30 * 86400000 ≤ 8640000000000000) (indices : List Nat)
    (hidx : ∀ i ∈ indices, i ≤ 29) (o : JsObject Nat) :
    ∃ window, (indices.foldlM
        (fun (contributionsByDate : JsObject Nat) (i : Nat) => do
          let date := setDate (fixedZone offset) today (getDate (fixedZone offset) today - (i : Int))
          let iso ← toISOString date
          pure (contributionsByDate.set (splitT0 iso) 0))
        o : Except JsError (JsObject Nat)) = Except.ok window := by
  induction indices generalizing o with
  | nil => exact ⟨o, rfl⟩
  | cons i indices ih =>
    have hi : i ≤ 29 := hidx i (List.mem_cons_self _ _)
    have hclip : TimeClip (today - (i : Int) * msPerDay) = some (today - (i : Int) * msPerDay) := by
      unfold TimeClip msPerDay
      rw [if_pos]
      omega
    obtain ⟨iso, hiso⟩ : ∃ iso, toISOString
        (setDate (fixedZone offset) today (getDate (fixedZone offset) today - (i : Int)))
        = Except.ok iso := by
      rw [(window_days_consecutive_in_fixed_zone offset today i).1, hclip]
      exact ⟨_, rfl⟩
    obtain ⟨window, hwin⟩ := ih (fun j hj => hidx j (List.mem_cons_of_mem _ hj))
      (o.set (splitT0 iso) 0)
    refine ⟨window, ?_⟩
    rw [List.foldlM_cons]
    simp only [hiso, bind, Except.bind, pure, Except.pure]
    exact hwin

/-- In a time zone with a constant offset from UTC and with the clock at least 30 days
inside the range of valid dates, `fetchContributionsAndCreateChart` builds its window and
counts every list of events without an exception. -/
theorem countContributions_completes_in_fixed_zone (offset today : Int)
    (eventsData : List Event) (hrange : today.natAbs + 30 * 86400000 ≤ 8640000000000000) :
    ∃ window, initWindow (fixedZone offset) today = .ok window
      ∧ countContributions (fixedZone offset) today eventsData
          = .ok (eventsData.foldl countEvent (window, 0)) := by
  obtain ⟨window, hwin⟩ := initLoop_ok_in_fixed_zone offset today hrange (List.range 30).reverse
    (by
      intro i hi
      rw [List.mem_reverse, List.mem_range] at hi
      omega)
    []
  refine ⟨window, hwin, ?_⟩
  unfold countContributions
  have hw : initWindow (fixedZone offset) today = .ok window := hwin
  rw [hw]
  rfl

/-- A browser on UTC+9 at noon UTC on 6 November 2026. -/
theorem countContributions_completes_in_fixed_zone_witness :
    sampleToday.natAbs + 30 * 86400000 ≤ 8640000000000000
    ∧ ∃ window, initWindow (fixedZone 32400000) sampleToday = .ok window
        ∧ countContributions (fixedZone 32400000) sampleToday sampleEvents
            = .ok (sampleEvents.foldl countEvent (window, 0)) :=
  ⟨by decide,
    countContributions_completes_in_fixed_zone 32400000 sampleToday sampleEvents (by decide)⟩

end Portfolio
